import Mathlib

/-!
Shallow embedding of `notification/models.py` from django-notification:
the data model (NoticeType, NoticeSetting, Notice, ActivityContext,
NoticeQueueBatch, ObservedItem), the preference store
(`get_notification_setting` / `should_send`), the dispatch engine
(`send_now`), the queue (`queue`), the router (`send`), the
queue-draining worker (modelled from the spec, as it is not part of the
sources) and the observer registry (`observe`, `stop_observing`,
`is_observing`, `send_observation_notices_for`), together with proofs of
the spec-level properties.

External collaborators (the template renderer, the auth user table, the
per-user language store, the site object and the Django settings) are
modelled as an explicit environment record `Env`.  Database state is a
record of lists, one per table; the process-wide active translation
language (`get_language` / `activate`) is threaded explicitly.
-/

namespace Notification

/-- A content-typed entity reference: Django generic foreign keys store a
content type and an object id.  Also used for `ActivityContext`, which is
looked up by equality of (kind, id). -/
structure Entity where
  ctype : String
  oid : Nat
deriving DecidableEq, Repr

/-- Values that can appear in a template / extra-context mapping. -/
inductive CtxVal where
  | str (s : String)
  | user (pk : Nat)
  | ent (e : Entity)
deriving DecidableEq, Repr

/-- A context mapping (insertion-ordered, like a Python dict). -/
abbrev Ctx := List (String × CtxVal)

/-- Dictionary lookup (first binding wins, as for a dict with unique keys). -/
def dictGet {α : Type} (l : List (String × α)) (k : String) : Option α :=
  match l.find? (fun p => p.1 == k) with
  | some p => some p.2
  | none => none

/-- Python `k in d` membership test. -/
def ctxHasKey (c : Ctx) (k : String) : Bool :=
  (dictGet c k).isSome

/-- Python `d[k] = v`: overwrite the binding if the key is present,
append it otherwise. -/
def ctxSet (c : Ctx) (k : String) (v : CtxVal) : Ctx :=
  if ctxHasKey c k then c.map (fun p => if p.1 == k then (k, v) else p)
  else c ++ [(k, v)]

/-- Python `base.update(extra)`: merge `extra` on top of `base`. -/
def ctxUpdate (base : Ctx) (extra : Ctx) : Ctx :=
  extra.foldl (fun acc p => ctxSet acc p.1 p.2) base

/-- Result of Django's `Manager.get` on a filtered table: the unique
matching row, or a miss, or several matches. -/
inductive Got (α : Type) where
  | found (a : α)
  | missing
  | multiple
deriving DecidableEq, Repr

/-- `objects.get(...)`: exactly one row must match the predicate. -/
def ormGet {α : Type} (l : List α) (p : α → Bool) : Got α :=
  match l.filter p with
  | [] => Got.missing
  | [x] => Got.found x
  | _ => Got.multiple

/-- Exceptions raised by the modelled code. -/
inductive Err where
  | doesNotExist
  | multipleObjectsReturned
  | keyError (k : String)
  | assertionError
deriving DecidableEq, Repr

/-- `NoticeType` (models.py lines 48-62): a named notification category
with a default sensitivity threshold.  Labels are globally unique, so the
embedding keys rows referencing a NoticeType by its label. -/
structure NoticeType where
  label : String
  display : String
  description : String
  default : Int
deriving DecidableEq, Repr

/-- `NOTICE_MEDIA_DEFAULTS` (lines 72-75): spam-sensitivity of each medium. -/
def NOTICE_MEDIA_DEFAULTS : List (String × Int) := [("1", 2), ("2", 3)]

/-- `NoticeSetting` (lines 77-91): whether to send notifications of a given
type to a given medium for a given user. -/
structure NoticeSetting where
  user : Nat
  noticeType : String
  medium : String
  send : Bool
deriving DecidableEq, Repr

/-- Body of a stored notice: either the rendered `notice.html` string or, in
lazy-rendering mode, the opaque pickled rendering context. -/
inductive NoticeMsg where
  | rendered (s : String)
  | pickled (c : Ctx)
deriving DecidableEq, Repr

/-- `Notice` (lines 145-156): one persisted notification for one user. -/
structure Notice where
  user : Nat
  message : NoticeMsg
  noticeType : String
  unseen : Bool
  archived : Bool
  on_site : Bool
  context : Option Entity
deriving DecidableEq, Repr

/-- One request tuple of a `NoticeQueueBatch` (line 437):
`(user.pk, label, extra_context, on_site, context)`. -/
structure QueueItem where
  userPk : Nat
  label : String
  extraContext : Ctx
  on_site : Bool
  context : Option Entity
deriving DecidableEq, Repr

/-- `ObservedItem` (lines 457-481): a subscription of a user to a signal of
an observed object. -/
structure ObservedItem where
  user : Nat
  entity : Entity
  noticeType : String
  signal : String
deriving DecidableEq, Repr

/-- The database: one list per table of the app.  A `NoticeQueueBatch` row is
its (unpickled) list of request tuples. -/
structure DB where
  noticeTypes : List NoticeType
  settings : List NoticeSetting
  notices : List Notice
  contexts : List Entity
  observed : List ObservedItem
  batches : List (List QueueItem)
deriving DecidableEq, Repr

/-- A Django auth user, as far as the module reads it. -/
structure UserRec where
  pk : Nat
  email : String
deriving DecidableEq, Repr

/-- Template rendering context: variable bindings plus the autoescape flag. -/
structure TCtx where
  vars : Ctx
  autoescape : Bool

/-- The external collaborators and settings of the module:
the auth user table, the `NOTIFICATION_LANGUAGE_MODULE` store, the template
renderer (`render_to_string` under both calling conventions used), the
translation function `ugettext` (as a function of the active language), the
current site, and the relevant Django settings. -/
structure Env where
  users : Nat → UserRec
  languageOf : Nat → Option String
  render : String → String → TCtx → String
  render2 : String → String → TCtx → String
  ugettext : String → String → String
  siteDomain : String
  settingsUrl : String
  lazyRendering : Bool
  profilesActivated : Bool
  queueAll : Bool
  sitePicture : Option String

/-- Process state: the database plus the process-wide active translation
language (`get_language` / `activate`). -/
structure World where
  db : DB
  lang : String
deriving Repr

/-- Row predicate of `NoticeSetting.objects.get(user=, notice_type=, medium=)`. -/
def settingMatches (user : Nat) (ntLabel medium : String) (s : NoticeSetting) : Bool :=
  s.user == user && s.noticeType == ntLabel && s.medium == medium

/-- Settings-table core of `get_notification_setting` (lines 93-100): fetch
the row, or create it with the computed default
`send = (NOTICE_MEDIA_DEFAULTS[medium] <= notice_type.default)`. -/
def gnsList (settings : List NoticeSetting) (user : Nat) (nt : NoticeType)
    (medium : String) : Except Err (NoticeSetting × List NoticeSetting) :=
  match ormGet settings (settingMatches user nt.label medium) with
  | Got.found s => Except.ok (s, settings)
  | Got.multiple => Except.error Err.multipleObjectsReturned
  | Got.missing =>
    match dictGet NOTICE_MEDIA_DEFAULTS medium with
    | none => Except.error (Err.keyError medium)
    | some sens =>
      let s : NoticeSetting :=
        { user := user, noticeType := nt.label, medium := medium,
          send := decide (sens ≤ nt.default) }
      Except.ok (s, settings ++ [s])

/-- `get_notification_setting` (lines 93-100). -/
def get_notification_setting (db : DB) (user : Nat) (nt : NoticeType)
    (medium : String) : Except Err (NoticeSetting × DB) :=
  match gnsList db.settings user nt medium with
  | Except.error e => Except.error e
  | Except.ok (s, l) => Except.ok (s, { db with settings := l })

/-- `should_send` (lines 102-103). -/
def should_send (db : DB) (user : Nat) (nt : NoticeType) (medium : String) :
    Except Err (Bool × DB) :=
  match get_notification_setting db user nt medium with
  | Except.error e => Except.error e
  | Except.ok (s, db1) => Except.ok (s.send, db1)

/-- `Notice.is_unseen` (lines 175-186): return the current value of `unseen`
and flip it to false if it was true (saving the row). -/
def Notice.is_unseen (n : Notice) : Bool × Notice :=
  (n.unseen, if n.unseen then { n with unseen := false } else n)

/-- `Notice.archive` (lines 171-173). -/
def Notice.archive (n : Notice) : Notice :=
  { n with archived := true }

/-- `create_notice_type` (lines 205-230): idempotent upsert keyed by label.
The second component of the result is the line printed to stdout (only when
`verbosity > 1`), the only report the function makes. -/
def create_notice_type (db : DB) (label display description : String)
    (dflt : Int) (verbosity : Nat) : Except Err (DB × Option String) :=
  match ormGet db.noticeTypes (fun t => t.label == label) with
  | Got.multiple => Except.error Err.multipleObjectsReturned
  | Got.found nt =>
    let r1 := if display != nt.display then ({ nt with display := display }, true)
              else (nt, false)
    let r2 := if description != r1.1.description then
                ({ r1.1 with description := description }, true)
              else r1
    let r3 := if dflt != r2.1.default then ({ r2.1 with default := dflt }, true)
              else r2
    if r3.2 then
      Except.ok
        ({ db with noticeTypes :=
             db.noticeTypes.map (fun t => if t.label == label then r3.1 else t) },
         if verbosity > 1 then some ("Updated " ++ label ++ " NoticeType") else none)
    else Except.ok (db, none)
  | Got.missing =>
    Except.ok
      ({ db with noticeTypes := db.noticeTypes ++
           [{ label := label, display := display, description := description,
              default := dflt }] },
       if verbosity > 1 then some ("Created " ++ label ++ " NoticeType") else none)

/-- `get_formatted_messages` (lines 249-264): render every format, turning
autoescaping off for `.txt` formats. -/
def get_formatted_messages (env : Env) (formats : List String) (label : String)
    (tc : TCtx) : List (String × String) :=
  formats.map (fun f => (f, env.render f label { tc with autoescape := !f.endsWith ".txt" }))

/-- `''.join(s.splitlines())` used on the email subject (line 334). -/
def stripNewlines (s : String) : String :=
  String.mk (s.data.filter (fun c => !(c == '\n' || c == '\r')))

/-- `ActivityContext.objects.get_or_create` step of `send_now`
(lines 284-288): ensure the context row exists. -/
def ctxAdd (db : DB) (ctxObj : Option Entity) : DB :=
  match ctxObj with
  | some e => if db.contexts.contains e then db
              else { db with contexts := db.contexts ++ [e] }
  | none => db

/-- The social-channel default filling of `send_now` (lines 361-369): insert
the computed defaults for the facebook attachment keys that are missing from
`extra_context` (the picture only when `NOTIFICATION_SITE_PICTURE` is set). -/
def fbFill (env : Env) (c : Ctx) (subject noticesUrl : String) : Ctx :=
  let c1 := if ctxHasKey c "name" then c
            else ctxSet c "name" (CtxVal.str env.siteDomain)
  let c2 := if ctxHasKey c1 "description" then c1
            else ctxSet c1 "description" (CtxVal.str subject)
  let c3 := if ctxHasKey c2 "link" then c2
            else ctxSet c2 "link" (CtxVal.str noticesUrl)
  match env.sitePicture with
  | some pic => if ctxHasKey c3 "picture" then c3
                else ctxSet c3 "picture" (CtxVal.str pic)
  | none => c3

/-- Per-recipient observable record of one iteration of the `send_now` loop:
the recipient, the translation language active while the recipient was
processed, the recipient list handed to `send_mail`, and whether the social
(facebook) branch ran.  `send_to_facebook` itself is daemonized
(fire-and-forget per the spec) and has no caller-visible effect. -/
structure Step where
  user : Nat
  lang : String
  emailRecipients : List String
  fb : Bool
deriving DecidableEq, Repr

/-- State threaded through the recipient loop of `send_now`: the database,
the process-wide active language, the (mutated in place) `extra_context`
mapping, and the trace of processed recipients. -/
structure SnState where
  db : DB
  lang : String
  ec : Ctx
  trace : List Step
deriving Repr

/-- The notices settings-page url built by `send_now` (lines 293-295). -/
def noticesUrlOf (env : Env) : String :=
  "http://" ++ env.siteDomain ++ env.settingsUrl

/-- The per-channel delivery tail of one `send_now` loop iteration
(lines 356-372), entered with the freshly created notice already stored in
`db1`: resolve the email preference (appending the recipient's address when
it is on and nonempty), resolve the social preference, fill the facebook
attachment defaults into `extra_context` when the social branch runs, and
record the `send_mail` call. -/
def send_now_channels (env : Env) (nt : NoticeType) (s : SnState) (u : UserRec)
    (lang1 subject noticesUrl : String) (db1 : DB) : SnState × Option Err :=
  match should_send db1 u.pk nt "1" with
  | Except.error e => ({ s with db := db1, lang := lang1 }, some e)
  | Except.ok (sendEmail, db2) =>
    match should_send db2 u.pk nt "2" with
    | Except.error e => ({ s with db := db2, lang := lang1 }, some e)
    | Except.ok (sendFb, db3) =>
      ({ db := db3, lang := lang1,
         ec := if sendFb && env.profilesActivated then
             fbFill env s.ec subject noticesUrl
           else s.ec,
         trace := s.trace ++
           [{ user := u.pk, lang := lang1,
              emailRecipients := if sendEmail && u.email != "" then [u.email] else [],
              fb := sendFb && env.profilesActivated }] },
       none)

/-- One iteration of the recipient loop of `send_now` (lines 308-372).
Returns the updated state and `some e` when the Python body would raise. -/
def send_now_step (env : Env) (label : String) (nt : NoticeType)
    (formats : List String) (on_site : Bool) (ctxObj : Option Entity)
    (s : SnState) (u : UserRec) : SnState × Option Err :=
  let lang1 := match env.languageOf u.pk with
    | some l => l
    | none => s.lang
  let baseVars : Ctx :=
    [("user", CtxVal.user u.pk),
     ("notice", CtxVal.str (env.ugettext lang1 nt.display)),
     ("notices_url", CtxVal.str (noticesUrlOf env)),
     ("current_site", CtxVal.str env.siteDomain)]
  let tc : TCtx := { vars := ctxUpdate baseVars s.ec, autoescape := true }
  let messages := get_formatted_messages env formats label tc
  match dictGet messages "short.txt" with
  | none => ({ s with lang := lang1 }, some (Err.keyError "short.txt"))
  | some shortTxt =>
    match dictGet messages "full.txt" with
    | none => ({ s with lang := lang1 }, some (Err.keyError "full.txt"))
    | some _fullTxt =>
      let noticeMsg : Except Err NoticeMsg :=
        if env.lazyRendering && on_site then
          Except.ok (NoticeMsg.pickled (ctxUpdate baseVars s.ec))
        else
          match dictGet messages "notice.html" with
          | none => Except.error (Err.keyError "notice.html")
          | some m => Except.ok (NoticeMsg.rendered m)
      match noticeMsg with
      | Except.error e => ({ s with lang := lang1 }, some e)
      | Except.ok msg =>
        send_now_channels env nt s u lang1
          (stripNewlines (env.render2 "notification/email_subject.txt" shortTxt tc))
          (noticesUrlOf env)
          { s.db with notices := s.db.notices ++
              [{ user := u.pk, message := msg, noticeType := label,
                 unseen := true, archived := false, on_site := on_site,
                 context := ctxObj }] }

/-- The recipient loop of `send_now`: process users in order, stopping at the
first raised exception (which propagates, leaving the partial state). -/
def send_now_loop (env : Env) (label : String) (nt : NoticeType)
    (formats : List String) (on_site : Bool) (ctxObj : Option Entity) :
    List UserRec → SnState → SnState × Option Err
  | [], s => (s, none)
  | u :: rest, s =>
    match send_now_step env label nt formats on_site ctxObj s u with
    | (s1, some e) => (s1, some e)
    | (s1, none) => send_now_loop env label nt formats on_site ctxObj rest s1

/-- Result of a `send_now` call: final database, final process language,
final `extra_context` mapping (mutated in place by the call), the
per-recipient trace, and the exception the call raised, if any. -/
structure SnResult where
  db : DB
  lang : String
  ec : Ctx
  trace : List Step
  err : Option Err
deriving Repr

/-- The format list of `send_now` (lines 300-306): `notice.html` is added
just when lazy rendering is off and the notice is on-site. -/
def snFormats (env : Env) (on_site : Bool) : List String :=
  if !env.lazyRendering && on_site then
    ["short.txt", "full.txt", "full.html", "notice.html"]
  else ["short.txt", "full.txt", "full.html"]

/-- Body of `send_now` after the activity-context step: resolve the notice
type by label, run the recipient loop on the given start state, and restore
the saved language afterwards (only reached when no exception was raised
inside the loop). -/
def send_now_core (env : Env) (db0 : DB) (lang0 : String) (users : List UserRec)
    (label : String) (ec0 : Ctx) (on_site : Bool) (ctxObj : Option Entity) :
    SnResult :=
  match ormGet db0.noticeTypes (fun t => t.label == label) with
  | Got.missing =>
    { db := db0, lang := lang0, ec := ec0, trace := [], err := some Err.doesNotExist }
  | Got.multiple =>
    { db := db0, lang := lang0, ec := ec0, trace := [],
      err := some Err.multipleObjectsReturned }
  | Got.found nt =>
    match send_now_loop env label nt (snFormats env on_site) on_site ctxObj users
        { db := db0, lang := lang0, ec := ec0, trace := [] } with
    | (sF, some e) =>
      { db := sF.db, lang := sF.lang, ec := sF.ec, trace := sF.trace, err := some e }
    | (sF, none) =>
      { db := sF.db, lang := lang0, ec := sF.ec, trace := sF.trace, err := none }

/-- `send_now` (lines 266-375): normalize `extra_context`, get-or-create the
activity context, then run the dispatch body. -/
def send_now (env : Env) (w : World) (users : List UserRec) (label : String)
    (extra_context : Option Ctx) (on_site : Bool) (ctxObj : Option Entity) :
    SnResult :=
  send_now_core env (ctxAdd w.db ctxObj) w.lang users label
    (extra_context.getD []) on_site ctxObj

/-- `queue` (lines 423-438): normalize the users to their primary keys,
build one request tuple per user and persist the pickled list as a single
`NoticeQueueBatch` row. -/
def queue (db : DB) (users : List UserRec) (label : String)
    (extra_context : Option Ctx) (on_site : Bool) (ctxObj : Option Entity) : DB :=
  let ec := extra_context.getD []
  let items := users.map (fun u =>
    { userPk := u.pk, label := label, extraContext := ec,
      on_site := on_site, context := ctxObj })
  { db with batches := db.batches ++ [items] }

/-- Result of the `queue` branch of `send`, in the common result shape. -/
def queueResult (w : World) (users : List UserRec) (label : String)
    (extra_context : Option Ctx) (on_site : Bool) (ctxObj : Option Entity) :
    SnResult :=
  { db := queue w.db users label extra_context on_site ctxObj,
    lang := w.lang, ec := extra_context.getD [], trace := [], err := none }

/-- `send` (lines 403-421): router over `queue` and `send_now`, honouring the
global `NOTIFICATION_QUEUE_ALL` flag; asserts that `queue` and `now` are not
both set. -/
def send (env : Env) (w : World) (users : List UserRec) (label : String)
    (extra_context : Option Ctx) (on_site : Bool) (ctxObj : Option Entity)
    (queueFlag nowFlag : Bool) : Except Err SnResult :=
  if queueFlag && nowFlag then Except.error Err.assertionError
  else if queueFlag then
    Except.ok (queueResult w users label extra_context on_site ctxObj)
  else if nowFlag then
    Except.ok (send_now env w users label extra_context on_site ctxObj)
  else if env.queueAll then
    Except.ok (queueResult w users label extra_context on_site ctxObj)
  else
    Except.ok (send_now env w users label extra_context on_site ctxObj)

/-- Modelled from the spec: replay of the request tuples of one batch by the
queue-draining worker, which is not part of the sources (the spec notes it is
invoked by an external worker process).  Each tuple is replayed through the
Dispatch Engine's single-recipient path; a failure propagates, so the batch
is not deleted until every tuple of it has been replayed. -/
def drain_items (env : Env) : List QueueItem → World → World × Option Err
  | [], w => (w, none)
  | it :: rest, w =>
    let r := send_now env w [env.users it.userPk] it.label (some it.extraContext)
      it.on_site it.context
    match r.err with
    | some e => ({ db := r.db, lang := r.lang }, some e)
    | none => drain_items env rest { db := r.db, lang := r.lang }

/-- Modelled from the spec: the queue-draining worker loop over all batches.
After a batch has been fully replayed its record is deleted. -/
def drain_batches (env : Env) : List (List QueueItem) → World → World × Option Err
  | [], w => (w, none)
  | b :: rest, w =>
    match drain_items env b w with
    | (w1, some e) => (w1, some e)
    | (w1, none) =>
      drain_batches env rest
        { db := { w1.db with batches := w1.db.batches.erase b }, lang := w1.lang }

/-- Modelled from the spec: `drain` — the queue-draining worker, not part of
src/.  It reads all QueuedBatch records, deserializes each, replays every
request tuple through the Dispatch Engine's single-recipient path, then
deletes the batch record. -/
def drain (env : Env) (w : World) : World × Option Err :=
  drain_batches env w.db.batches w

/-- Row predicate of `ObservedItemManager.get_for` (lines 451-454). -/
def obsMatches (observed : Entity) (observer : Nat) (signal : String)
    (it : ObservedItem) : Bool :=
  it.entity == observed && it.user == observer && it.signal == signal

/-- `ObservedItemManager.all_for` (lines 442-449): all subscriptions to a
signal of an observed object (any observer). -/
def all_for (db : DB) (observed : Entity) (signal : String) : List ObservedItem :=
  db.observed.filter (fun it => it.entity == observed && it.signal == signal)

/-- `ObservedItemManager.get_for` (lines 451-454). -/
def get_for (db : DB) (observed : Entity) (observer : Nat) (signal : String) :
    Got ObservedItem :=
  ormGet db.observed (obsMatches observed observer signal)

/-- `observe` (lines 484-494): create a new ObservedItem after resolving the
notice type by label. -/
def observe (db : DB) (observed : Entity) (observer : UserRec) (label : String)
    (signal : String) : Except Err (ObservedItem × DB) :=
  match ormGet db.noticeTypes (fun t => t.label == label) with
  | Got.missing => Except.error Err.doesNotExist
  | Got.multiple => Except.error Err.multipleObjectsReturned
  | Got.found _ =>
    let item : ObservedItem :=
      { user := observer.pk, entity := observed, noticeType := label, signal := signal }
    Except.ok (item, { db with observed := db.observed ++ [item] })

/-- `stop_observing` (lines 496-501): look the subscription up and delete it. -/
def stop_observing (db : DB) (observed : Entity) (observer : UserRec)
    (signal : String) : Except Err DB :=
  match get_for db observed observer.pk signal with
  | Got.missing => Except.error Err.doesNotExist
  | Got.multiple => Except.error Err.multipleObjectsReturned
  | Got.found item => Except.ok { db with observed := db.observed.erase item }

/-- An observer as seen by `is_observing`: anonymous or an authenticated user. -/
inductive Observer where
  | anon
  | auth (pk : Nat)
deriving DecidableEq, Repr

/-- `is_observing` (lines 512-521): false for an anonymous user; otherwise
true when the lookup finds one (or more than one) matching subscription. -/
def is_observing (db : DB) (observed : Entity) (observer : Observer)
    (signal : String) : Bool :=
  match observer with
  | Observer.anon => false
  | Observer.auth pk =>
    match get_for db observed pk signal with
    | Got.found _ => true
    | Got.missing => false
    | Got.multiple => true

/-- `ObservedItem.send_notice` (lines 479-481): send to the stored user, with
the observed object in the extra context, through the `send` router with all
its defaults. -/
def send_notice (env : Env) (w : World) (it : ObservedItem) : Except Err SnResult :=
  send env w [env.users it.user] it.noticeType
    (some [("observed", CtxVal.ent it.entity)]) true none false false

/-- Loop body of `send_observation_notices_for` (lines 503-510): send a
notice for each subscription, stopping at the first raised exception. -/
def son_loop (env : Env) : List ObservedItem → World → World × Option Err
  | [], w => (w, none)
  | it :: rest, w =>
    match send_notice env w it with
    | Except.error e => (w, some e)
    | Except.ok r =>
      match r.err with
      | some e => ({ db := r.db, lang := r.lang }, some e)
      | none => son_loop env rest { db := r.db, lang := r.lang }

/-- `send_observation_notices_for` (lines 503-510). -/
def send_observation_notices_for (env : Env) (w : World) (observed : Entity)
    (signal : String) : World × List ObservedItem × Option Err :=
  let items := all_for w.db observed signal
  match son_loop env items w with
  | (w1, e) => (w1, items, e)

/-- The `unique_together ("user", "notice_type", "medium")` constraint of the
NoticeSetting table (models.py line 91): at most one row per triple. -/
def SettingsUnique (settings : List NoticeSetting) : Prop :=
  ∀ pk lbl m, (settings.filter (settingMatches pk lbl m)).length ≤ 1

/-- The dispatch-relevant projection of a database: everything except the
notice payloads (of the notices only the owners), the observed items and the
batches.  Two runs whose states agree on this projection behave alike as far
as notice creation is concerned. -/
def DB.core (d : DB) :
    List NoticeType × List NoticeSetting × List Entity × List Nat :=
  (d.noticeTypes, d.settings, d.contexts, d.notices.map (fun n => n.user))

/-- The notice record created by one `send_now` iteration (lines 350-354):
`unseen` and `archived` take their model defaults (true and false). -/
def mkNotice (pk : Nat) (msg : NoticeMsg) (label : String) (os : Bool)
    (ctxObj : Option Entity) : Notice :=
  { user := pk, message := msg, noticeType := label, unseen := true,
    archived := false, on_site := os, context := ctxObj }

/-- Invariant of the `extra_context` mapping through the recipient loop,
relative to the caller-supplied mapping `ec0`: once any processed recipient
has taken the social branch, the four facebook attachment keys are present;
the keys `name`, `link` and `picture` either still hold their original
binding or hold the engine-computed default; and every original binding is
still intact. -/
def EcInvar (env : Env) (pic : String) (ec0 : Ctx) (x : SnState) : Prop :=
  ((∃ st ∈ x.trace, st.fb = true) →
    (ctxHasKey x.ec "name" = true ∧ ctxHasKey x.ec "description" = true ∧
     ctxHasKey x.ec "link" = true ∧ ctxHasKey x.ec "picture" = true)) ∧
  (dictGet x.ec "name" = dictGet ec0 "name" ∨
    dictGet x.ec "name" = some (CtxVal.str env.siteDomain)) ∧
  (dictGet x.ec "link" = dictGet ec0 "link" ∨
    dictGet x.ec "link" = some (CtxVal.str (noticesUrlOf env))) ∧
  (dictGet x.ec "picture" = dictGet ec0 "picture" ∨
    dictGet x.ec "picture" = some (CtxVal.str pic)) ∧
  (∀ k v, dictGet ec0 k = some v → dictGet x.ec k = some v)

/-! Concrete fixtures used by witnesses and counterexamples. -/

/-- An empty database. -/
def dbEmpty : DB := ⟨[], [], [], [], [], []⟩

/-- The `welcome` notice type with default sensitivity 2. -/
def ntW : NoticeType := ⟨"welcome", "Welcome", "a welcome notice", 2⟩

/-- A database holding only the `welcome` notice type. -/
def dbW : DB := ⟨[ntW], [], [], [], [], []⟩

/-- A user with an email address. -/
def userW : UserRec := ⟨1, "u@example.com"⟩

/-- A second user, with no email address and no stored language. -/
def user2W : UserRec := ⟨2, ""⟩

/-- An observed entity. -/
def entityW : Entity := ⟨"project", 42⟩

/-- A database with one subscription of user 5 to `entityW`. -/
def dbObsW : DB := ⟨[ntW], [], [], [], [⟨5, entityW, "welcome", "post_save"⟩], []⟩

/-- A concrete environment: every user resolves to a record with their pk, no
per-user language store entries, simple renderers, identity translation. -/
def envW : Env :=
  { users := fun pk => ⟨pk, "u@example.com"⟩
    languageOf := fun _ => none
    render := fun _ _ _ => "rendered"
    render2 := fun _ m _ => m
    ugettext := fun _ s => s
    siteDomain := "example.com"
    settingsUrl := "/notices/"
    lazyRendering := false
    profilesActivated := false
    queueAll := false
    sitePicture := none }

/-- Like `envW` but user 1 has stored language "fr" (and nobody else has one). -/
def envFrW : Env := { envW with languageOf := fun pk => if pk == 1 then some "fr" else none }

/-- Like `envW` but with profiles activated and a configured site picture. -/
def envFbW : Env := { envW with profilesActivated := true, sitePicture := some "pic.png" }

/-- The `welcome` notice type with default sensitivity 3, so that the social
medium (sensitivity 3) is on by default. -/
def dbFbW : DB := ⟨[⟨"welcome", "Welcome", "a welcome notice", 3⟩], [], [], [], [], []⟩

/-- A concrete unseen notice. -/
def noticeW : Notice := ⟨1, NoticeMsg.rendered "hi", "welcome", true, false, true, none⟩

/-! Supporting lemmas: dictionaries and the facebook default filling. -/

theorem dictGet_cons {α : Type} (x : String × α) (t : List (String × α))
    (k : String) :
    dictGet (x :: t) k = if x.1 == k then some x.2 else dictGet t k := by
  by_cases h : (x.1 == k) = true
  · simp [dictGet, List.find?_cons_of_pos _ h, h]
  · simp [dictGet, List.find?_cons_of_neg _ h, h]

theorem dictGet_append {α : Type} (l1 l2 : List (String × α)) (k : String) :
    dictGet (l1 ++ l2) k = (dictGet l1 k).or (dictGet l2 k) := by
  simp only [dictGet, List.find?_append]
  cases h1 : List.find? (fun p => p.1 == k) l1 with
  | some p => simp
  | none => cases h2 : List.find? (fun p => p.1 == k) l2 <;> simp

theorem dictGet_append_left {α : Type} (l1 l2 : List (String × α)) (k : String)
    (v : α) (h : dictGet l1 k = some v) : dictGet (l1 ++ l2) k = some v := by
  rw [dictGet_append, h]; rfl

theorem dictGet_append_right {α : Type} (l1 l2 : List (String × α)) (k : String)
    (h : dictGet l1 k = none) : dictGet (l1 ++ l2) k = dictGet l2 k := by
  rw [dictGet_append, h]; cases dictGet l2 k <;> rfl

theorem dictGet_map {α : Type} (g : String → α) (l : List String) (k : String) :
    dictGet (l.map fun f => (f, g f)) k = if k ∈ l then some (g k) else none := by
  induction l with
  | nil => simp [dictGet]
  | cons a t ih =>
    rw [List.map_cons, dictGet_cons]
    by_cases hak : a = k
    · subst hak; simp
    · have hka : ¬k = a := fun h => hak h.symm
      simp [hak, hka, ih]

theorem dictGet_gfm (env : Env) (formats : List String) (label : String)
    (tc : TCtx) (k : String) :
    dictGet (get_formatted_messages env formats label tc) k =
      if k ∈ formats then
        some (env.render k label { tc with autoescape := !k.endsWith ".txt" })
      else none := by
  unfold get_formatted_messages
  exact dictGet_map (fun f => env.render f label
    { tc with autoescape := !f.endsWith ".txt" }) formats k

theorem ctxHasKey_false_iff {c : Ctx} {k : String} :
    ctxHasKey c k = false ↔ dictGet c k = none := by
  unfold ctxHasKey; cases dictGet c k <;> simp

theorem ctxHasKey_true_iff {c : Ctx} {k : String} :
    ctxHasKey c k = true ↔ ∃ v, dictGet c k = some v := by
  unfold ctxHasKey; cases dictGet c k <;> simp

theorem ctxSet_of_missing (c : Ctx) (k : String) (v : CtxVal)
    (h : ctxHasKey c k = false) : ctxSet c k v = c ++ [(k, v)] := by
  simp [ctxSet, h]

theorem ctxIns_preserve (c : Ctx) (k0 : String) (v0 : CtxVal) (k : String)
    (v : CtxVal) (h : dictGet c k = some v) :
    dictGet (if ctxHasKey c k0 then c else ctxSet c k0 v0) k = some v := by
  cases h0 : ctxHasKey c k0 with
  | true => simpa [h0] using h
  | false =>
    rw [if_neg (by simp [h0]), ctxSet_of_missing c k0 v0 h0]
    exact dictGet_append_left _ _ _ _ h

theorem ctxIns_get_self (c : Ctx) (k0 : String) (v0 : CtxVal)
    (h : ctxHasKey c k0 = false) :
    dictGet (if ctxHasKey c k0 then c else ctxSet c k0 v0) k0 = some v0 := by
  rw [if_neg (by simp [h]), ctxSet_of_missing c k0 v0 h,
    dictGet_append_right _ _ _ (ctxHasKey_false_iff.mp h), dictGet_cons]
  simp

theorem ctxIns_hasKey_other (c : Ctx) (k0 : String) (v0 : CtxVal) (k : String)
    (hne : (k0 == k) = false) :
    ctxHasKey (if ctxHasKey c k0 then c else ctxSet c k0 v0) k = ctxHasKey c k := by
  cases h0 : ctxHasKey c k0 with
  | true => rw [if_pos (by simp [h0])]
  | false =>
    rw [if_neg (by simp [h0]), ctxSet_of_missing c k0 v0 h0]
    unfold ctxHasKey
    rw [dictGet_append]
    cases hg : dictGet c k <;> simp [dictGet_cons, hne, dictGet]

theorem fbFill_preserve (env : Env) (c : Ctx) (subj url : String) (k : String)
    (v : CtxVal) (h : dictGet c k = some v) :
    dictGet (fbFill env c subj url) k = some v := by
  unfold fbFill
  cases hsp : env.sitePicture with
  | none =>
    exact ctxIns_preserve _ _ _ _ _ (ctxIns_preserve _ _ _ _ _
      (ctxIns_preserve _ _ _ _ _ h))
  | some pic =>
    exact ctxIns_preserve _ _ _ _ _ (ctxIns_preserve _ _ _ _ _
      (ctxIns_preserve _ _ _ _ _ (ctxIns_preserve _ _ _ _ _ h)))

theorem fbFill_name_missing (env : Env) (c : Ctx) (subj url : String)
    (h : ctxHasKey c "name" = false) :
    dictGet (fbFill env c subj url) "name" = some (CtxVal.str env.siteDomain) := by
  unfold fbFill
  cases hsp : env.sitePicture with
  | none =>
    exact ctxIns_preserve _ _ _ _ _ (ctxIns_preserve _ _ _ _ _
      (ctxIns_get_self _ _ _ h))
  | some pic =>
    exact ctxIns_preserve _ _ _ _ _ (ctxIns_preserve _ _ _ _ _
      (ctxIns_preserve _ _ _ _ _ (ctxIns_get_self _ _ _ h)))

theorem fbFill_description_missing (env : Env) (c : Ctx) (subj url : String)
    (h : ctxHasKey c "description" = false) :
    ∃ v, dictGet (fbFill env c subj url) "description" = some v := by
  unfold fbFill
  have h1 : ctxHasKey (if ctxHasKey c "name" then c
      else ctxSet c "name" (CtxVal.str env.siteDomain)) "description" = false := by
    rw [ctxIns_hasKey_other c "name" _ "description" (by decide)]; exact h
  cases hsp : env.sitePicture with
  | none =>
    exact ⟨_, ctxIns_preserve _ _ _ _ _ (ctxIns_get_self _ _ _ h1)⟩
  | some pic =>
    exact ⟨_, ctxIns_preserve _ _ _ _ _ (ctxIns_preserve _ _ _ _ _
      (ctxIns_get_self _ _ _ h1))⟩

theorem fbFill_link_missing (env : Env) (c : Ctx) (subj url : String)
    (h : ctxHasKey c "link" = false) :
    dictGet (fbFill env c subj url) "link" = some (CtxVal.str url) := by
  unfold fbFill
  have h1 : ctxHasKey (if ctxHasKey c "name" then c
      else ctxSet c "name" (CtxVal.str env.siteDomain)) "link" = false := by
    rw [ctxIns_hasKey_other c "name" _ "link" (by decide)]; exact h
  have h2 : ctxHasKey (if ctxHasKey (if ctxHasKey c "name" then c
        else ctxSet c "name" (CtxVal.str env.siteDomain)) "description" then
        (if ctxHasKey c "name" then c else ctxSet c "name" (CtxVal.str env.siteDomain))
      else ctxSet (if ctxHasKey c "name" then c
        else ctxSet c "name" (CtxVal.str env.siteDomain)) "description"
        (CtxVal.str subj)) "link" = false := by
    rw [ctxIns_hasKey_other _ "description" _ "link" (by decide)]; exact h1
  cases hsp : env.sitePicture with
  | none => exact ctxIns_get_self _ _ _ h2
  | some pic => exact ctxIns_preserve _ _ _ _ _ (ctxIns_get_self _ _ _ h2)

theorem fbFill_picture_missing (env : Env) (c : Ctx) (subj url : String)
    (pic : String) (hsp : env.sitePicture = some pic)
    (h : ctxHasKey c "picture" = false) :
    dictGet (fbFill env c subj url) "picture" = some (CtxVal.str pic) := by
  unfold fbFill
  rw [hsp]
  have h1 : ctxHasKey (if ctxHasKey c "name" then c
      else ctxSet c "name" (CtxVal.str env.siteDomain)) "picture" = false := by
    rw [ctxIns_hasKey_other c "name" _ "picture" (by decide)]; exact h
  have h2 := ctxIns_hasKey_other (if ctxHasKey c "name" then c
      else ctxSet c "name" (CtxVal.str env.siteDomain)) "description"
    (CtxVal.str subj) "picture" (by decide)
  rw [h1] at h2
  have h3 := ctxIns_hasKey_other (if ctxHasKey (if ctxHasKey c "name" then c
        else ctxSet c "name" (CtxVal.str env.siteDomain)) "description" then
        (if ctxHasKey c "name" then c else ctxSet c "name" (CtxVal.str env.siteDomain))
      else ctxSet (if ctxHasKey c "name" then c
        else ctxSet c "name" (CtxVal.str env.siteDomain)) "description"
        (CtxVal.str subj)) "link" (CtxVal.str url) "picture" (by decide)
  rw [h2] at h3
  exact ctxIns_get_self _ _ _ h3

theorem hasKey_of_get {c : Ctx} {k : String} {v : CtxVal}
    (h : dictGet c k = some v) : ctxHasKey c k = true := by
  unfold ctxHasKey; rw [h]; rfl

theorem fbFill_marks (env : Env) (c : Ctx) (subj url : String) (pic : String)
    (hsp : env.sitePicture = some pic) :
    ctxHasKey (fbFill env c subj url) "name" = true ∧
    ctxHasKey (fbFill env c subj url) "description" = true ∧
    ctxHasKey (fbFill env c subj url) "link" = true ∧
    ctxHasKey (fbFill env c subj url) "picture" = true := by
  refine ⟨?_, ?_, ?_, ?_⟩
  · cases hk : ctxHasKey c "name" with
    | false => exact hasKey_of_get (fbFill_name_missing env c subj url hk)
    | true =>
      obtain ⟨v, hv⟩ := ctxHasKey_true_iff.mp hk
      exact hasKey_of_get (fbFill_preserve env c subj url _ _ hv)
  · cases hk : ctxHasKey c "description" with
    | false =>
      obtain ⟨v, hv⟩ := fbFill_description_missing env c subj url hk
      exact hasKey_of_get hv
    | true =>
      obtain ⟨v, hv⟩ := ctxHasKey_true_iff.mp hk
      exact hasKey_of_get (fbFill_preserve env c subj url _ _ hv)
  · cases hk : ctxHasKey c "link" with
    | false => exact hasKey_of_get (fbFill_link_missing env c subj url hk)
    | true =>
      obtain ⟨v, hv⟩ := ctxHasKey_true_iff.mp hk
      exact hasKey_of_get (fbFill_preserve env c subj url _ _ hv)
  · cases hk : ctxHasKey c "picture" with
    | false => exact hasKey_of_get (fbFill_picture_missing env c subj url pic hsp hk)
    | true =>
      obtain ⟨v, hv⟩ := ctxHasKey_true_iff.mp hk
      exact hasKey_of_get (fbFill_preserve env c subj url _ _ hv)

/-! Supporting lemmas: the preference store and the channel-delivery tail. -/

theorem settingMatches_iff (pk : Nat) (lbl m : String) (s0 : NoticeSetting) :
    settingMatches pk lbl m s0 = true ↔
      s0.user = pk ∧ s0.noticeType = lbl ∧ s0.medium = m := by
  simp [settingMatches, and_assoc]

theorem SettingsUnique_nil : SettingsUnique [] := by
  intro pk lbl m; simp

theorem SettingsUnique_append_new (settings : List NoticeSetting)
    (s0 : NoticeSetting)
    (h : settings.filter (settingMatches s0.user s0.noticeType s0.medium) = [])
    (hu : SettingsUnique settings) : SettingsUnique (settings ++ [s0]) := by
  intro pk lbl m
  rw [List.filter_append]
  cases hm : settingMatches pk lbl m s0 with
  | false =>
    have hone : List.filter (settingMatches pk lbl m) [s0] = [] := by
      simp [List.filter, hm]
    rw [hone, List.append_nil]
    exact hu pk lbl m
  | true =>
    obtain ⟨h1, h2, h3⟩ := (settingMatches_iff pk lbl m s0).mp hm
    have hfe : settings.filter (settingMatches pk lbl m) = [] := by
      rw [← h1, ← h2, ← h3]; exact h
    rw [hfe]
    simp [List.filter, hm]

theorem gnsList_ok (settings : List NoticeSetting) (user : Nat) (nt : NoticeType)
    (medium : String) (hu : SettingsUnique settings)
    (hm : medium = "1" ∨ medium = "2") :
    ∃ s l, gnsList settings user nt medium = Except.ok (s, l) ∧
      SettingsUnique l := by
  unfold gnsList ormGet
  cases hf : settings.filter (settingMatches user nt.label medium) with
  | nil =>
    have hd : ∃ sens, dictGet NOTICE_MEDIA_DEFAULTS medium = some sens := by
      rcases hm with h | h <;> subst h
      · exact ⟨2, rfl⟩
      · exact ⟨3, rfl⟩
    obtain ⟨sens, hsens⟩ := hd
    rw [hsens]
    refine ⟨_, _, rfl, SettingsUnique_append_new settings _ hf hu⟩
  | cons a t =>
    cases t with
    | nil => exact ⟨a, settings, rfl, hu⟩
    | cons b t2 =>
      exfalso
      have hlen := hu user nt.label medium
      rw [hf] at hlen
      simp at hlen

theorem should_send_ok (db : DB) (user : Nat) (nt : NoticeType) (medium : String)
    (hu : SettingsUnique db.settings) (hm : medium = "1" ∨ medium = "2") :
    ∃ b l, should_send db user nt medium = Except.ok (b, { db with settings := l }) ∧
      SettingsUnique l := by
  obtain ⟨s0, l, hok, hul⟩ := gnsList_ok db.settings user nt medium hu hm
  refine ⟨s0.send, l, ?_, hul⟩
  unfold should_send get_notification_setting
  rw [hok]

theorem should_send_shape (db : DB) (user : Nat) (nt : NoticeType)
    (medium : String) (b : Bool) (db' : DB)
    (h : should_send db user nt medium = Except.ok (b, db')) :
    db'.noticeTypes = db.noticeTypes ∧ db'.notices = db.notices ∧
    db'.contexts = db.contexts ∧ db'.observed = db.observed ∧
    db'.batches = db.batches := by
  unfold should_send get_notification_setting at h
  cases hg : gnsList db.settings user nt medium with
  | error e => rw [hg] at h; simp at h
  | ok pair =>
    obtain ⟨s0, l⟩ := pair
    rw [hg] at h
    injection h with h2
    have hdb : db' = { db with settings := l } := (congrArg Prod.snd h2).symm
    subst hdb
    exact ⟨rfl, rfl, rfl, rfl, rfl⟩

theorem send_now_channels_pres (env : Env) (nt : NoticeType) (s : SnState)
    (u : UserRec) (lang1 subj url : String) (db1 : DB) :
    (send_now_channels env nt s u lang1 subj url db1).1.db.noticeTypes =
      db1.noticeTypes ∧
    (send_now_channels env nt s u lang1 subj url db1).1.db.notices = db1.notices ∧
    (send_now_channels env nt s u lang1 subj url db1).1.db.contexts = db1.contexts ∧
    (send_now_channels env nt s u lang1 subj url db1).1.db.observed = db1.observed ∧
    (send_now_channels env nt s u lang1 subj url db1).1.db.batches = db1.batches := by
  unfold send_now_channels
  cases h1 : should_send db1 u.pk nt "1" with
  | error e => exact ⟨rfl, rfl, rfl, rfl, rfl⟩
  | ok p1 =>
    obtain ⟨b1, db2⟩ := p1
    dsimp only
    have H1 := should_send_shape db1 u.pk nt "1" b1 db2 h1
    cases h2 : should_send db2 u.pk nt "2" with
    | error e => exact ⟨H1.1, H1.2.1, H1.2.2.1, H1.2.2.2.1, H1.2.2.2.2⟩
    | ok p2 =>
      obtain ⟨b2, db3⟩ := p2
      dsimp only
      have H2 := should_send_shape db2 u.pk nt "2" b2 db3 h2
      exact ⟨H2.1.trans H1.1, (H2.2.1).trans H1.2.1,
        (H2.2.2.1).trans H1.2.2.1, (H2.2.2.2.1).trans H1.2.2.2.1,
        (H2.2.2.2.2).trans H1.2.2.2.2⟩

theorem send_now_channels_ok (env : Env) (nt : NoticeType) (s : SnState)
    (u : UserRec) (lang1 subj url : String) (db1 : DB)
    (hu : SettingsUnique db1.settings) :
    (send_now_channels env nt s u lang1 subj url db1).2 = none ∧
    (send_now_channels env nt s u lang1 subj url db1).1.db.notices = db1.notices ∧
    SettingsUnique (send_now_channels env nt s u lang1 subj url db1).1.db.settings ∧
    (send_now_channels env nt s u lang1 subj url db1).1.db.noticeTypes =
      db1.noticeTypes ∧
    (send_now_channels env nt s u lang1 subj url db1).1.db.contexts = db1.contexts ∧
    (send_now_channels env nt s u lang1 subj url db1).1.db.observed = db1.observed ∧
    (send_now_channels env nt s u lang1 subj url db1).1.db.batches = db1.batches ∧
    (∃ st, (send_now_channels env nt s u lang1 subj url db1).1.trace =
      s.trace ++ [st] ∧ st.user = u.pk ∧ st.lang = lang1) := by
  obtain ⟨b1, l1, h1, hu1⟩ := should_send_ok db1 u.pk nt "1" hu (Or.inl rfl)
  obtain ⟨b2, l2, h2, hu2⟩ :=
    should_send_ok { db1 with settings := l1 } u.pk nt "2" hu1 (Or.inr rfl)
  unfold send_now_channels
  rw [h1]
  dsimp only
  rw [h2]
  dsimp only
  exact ⟨rfl, rfl, hu2, rfl, rfl, rfl, rfl, ⟨_, rfl, rfl, rfl⟩⟩

theorem send_now_channels_ec (env : Env) (nt : NoticeType) (s : SnState)
    (u : UserRec) (lang1 subj url : String) (db1 : DB) :
    ((send_now_channels env nt s u lang1 subj url db1).1.ec = s.ec ∧
     (send_now_channels env nt s u lang1 subj url db1).1.trace = s.trace) ∨
    (∃ st subj2, (send_now_channels env nt s u lang1 subj url db1).1.trace =
        s.trace ++ [st] ∧
      (send_now_channels env nt s u lang1 subj url db1).1.ec =
        if st.fb then fbFill env s.ec subj2 url else s.ec) := by
  unfold send_now_channels
  cases h1 : should_send db1 u.pk nt "1" with
  | error e => exact Or.inl ⟨rfl, rfl⟩
  | ok p1 =>
    obtain ⟨b1, db2⟩ := p1
    dsimp only
    cases h2 : should_send db2 u.pk nt "2" with
    | error e => exact Or.inl ⟨rfl, rfl⟩
    | ok p2 =>
      obtain ⟨b2, db3⟩ := p2
      dsimp only
      exact Or.inr ⟨_, subj, rfl, rfl⟩

theorem send_now_channels_core (env : Env) (nt : NoticeType) (s t : SnState)
    (u v : UserRec) (lang1s lang1t subjs subjt urls urlt : String)
    (db1s db1t : DB) (hpk : u.pk = v.pk) (hc : db1s.core = db1t.core) :
    (send_now_channels env nt s u lang1s subjs urls db1s).1.db.core =
      (send_now_channels env nt t v lang1t subjt urlt db1t).1.db.core ∧
    (send_now_channels env nt s u lang1s subjs urls db1s).2 =
      (send_now_channels env nt t v lang1t subjt urlt db1t).2 := by
  have hnt : db1s.noticeTypes = db1t.noticeTypes := congrArg (fun x => x.1) hc
  have hset : db1s.settings = db1t.settings := congrArg (fun x => x.2.1) hc
  have hcx : db1s.contexts = db1t.contexts := congrArg (fun x => x.2.2.1) hc
  have how : db1s.notices.map (fun n => n.user) =
      db1t.notices.map (fun n => n.user) := congrArg (fun x => x.2.2.2) hc
  unfold send_now_channels should_send get_notification_setting
  rw [hset, hpk]
  cases hg1 : gnsList db1t.settings v.pk nt "1" with
  | error e => exact ⟨hc, rfl⟩
  | ok p1 =>
    obtain ⟨s0, l1⟩ := p1
    dsimp only
    cases hg2 : gnsList l1 v.pk nt "2" with
    | error e =>
      constructor
      · simp [DB.core, hnt, hcx, how]
      · rfl
    | ok p2 =>
      obtain ⟨s02, l2⟩ := p2
      constructor
      · simp [DB.core, hnt, hcx, how]
      · rfl

/-! Supporting lemmas: dispatch steps, the recipient loop and `send_now`. -/

theorem ctxAdd_noticeTypes (db : DB) (o : Option Entity) :
    (ctxAdd db o).noticeTypes = db.noticeTypes := by
  cases o with
  | none => rfl
  | some e =>
    unfold ctxAdd
    dsimp only
    split <;> rfl

theorem ctxAdd_settings (db : DB) (o : Option Entity) :
    (ctxAdd db o).settings = db.settings := by
  cases o with
  | none => rfl
  | some e =>
    unfold ctxAdd
    dsimp only
    split <;> rfl

theorem ctxAdd_notices (db : DB) (o : Option Entity) :
    (ctxAdd db o).notices = db.notices := by
  cases o with
  | none => rfl
  | some e =>
    unfold ctxAdd
    dsimp only
    split <;> rfl

theorem ctxAdd_observed (db : DB) (o : Option Entity) :
    (ctxAdd db o).observed = db.observed := by
  cases o with
  | none => rfl
  | some e =>
    unfold ctxAdd
    dsimp only
    split <;> rfl

theorem ctxAdd_batches (db : DB) (o : Option Entity) :
    (ctxAdd db o).batches = db.batches := by
  cases o with
  | none => rfl
  | some e =>
    unfold ctxAdd
    dsimp only
    split <;> rfl

theorem snFormats_short (env : Env) (on_site : Bool) :
    "short.txt" ∈ snFormats env on_site := by
  unfold snFormats; split <;> simp

theorem snFormats_full (env : Env) (on_site : Bool) :
    "full.txt" ∈ snFormats env on_site := by
  unfold snFormats; split <;> simp

theorem snFormats_notice (env : Env) (h : env.lazyRendering = false) :
    "notice.html" ∈ snFormats env true := by
  simp [snFormats, h]

theorem send_now_step_ok_aux (env : Env) (nt : NoticeType) (s : SnState)
    (u : UserRec) (lang1 subj url : String) (db1 : DB) (msg : NoticeMsg)
    (label : String) (ctxObj : Option Entity)
    (hdb : db1 = { s.db with notices :=
      s.db.notices ++ [mkNotice u.pk msg label true ctxObj] })
    (hu : SettingsUnique s.db.settings) :
    (send_now_channels env nt s u lang1 subj url db1).2 = none ∧
    (∃ msg2, (send_now_channels env nt s u lang1 subj url db1).1.db.notices =
      s.db.notices ++ [mkNotice u.pk msg2 label true ctxObj]) ∧
    SettingsUnique (send_now_channels env nt s u lang1 subj url db1).1.db.settings ∧
    (send_now_channels env nt s u lang1 subj url db1).1.db.noticeTypes =
      s.db.noticeTypes ∧
    (send_now_channels env nt s u lang1 subj url db1).1.db.contexts =
      s.db.contexts ∧
    (send_now_channels env nt s u lang1 subj url db1).1.db.observed =
      s.db.observed ∧
    (send_now_channels env nt s u lang1 subj url db1).1.db.batches =
      s.db.batches ∧
    (∃ st, (send_now_channels env nt s u lang1 subj url db1).1.trace =
      s.trace ++ [st] ∧ st.user = u.pk) := by
  subst hdb
  obtain ⟨he, hnot, hus, hnt, hcx, hob, hbt, st, htr, hstu, _⟩ :=
    send_now_channels_ok env nt s u lang1 subj url
      { s.db with notices :=
          s.db.notices ++ [mkNotice u.pk msg label true ctxObj] } hu
  exact ⟨he, ⟨msg, hnot⟩, hus, hnt, hcx, hob, hbt, st, htr, hstu⟩

theorem send_now_step_ok (env : Env) (label : String) (nt : NoticeType)
    (formats : List String) (ctxObj : Option Entity) (s : SnState) (u : UserRec)
    (h1 : "short.txt" ∈ formats) (h2 : "full.txt" ∈ formats)
    (h3 : env.lazyRendering = false → "notice.html" ∈ formats)
    (hu : SettingsUnique s.db.settings) :
    (send_now_step env label nt formats true ctxObj s u).2 = none ∧
    (∃ msg, (send_now_step env label nt formats true ctxObj s u).1.db.notices =
      s.db.notices ++ [mkNotice u.pk msg label true ctxObj]) ∧
    SettingsUnique
      (send_now_step env label nt formats true ctxObj s u).1.db.settings ∧
    (send_now_step env label nt formats true ctxObj s u).1.db.noticeTypes =
      s.db.noticeTypes ∧
    (send_now_step env label nt formats true ctxObj s u).1.db.contexts =
      s.db.contexts ∧
    (send_now_step env label nt formats true ctxObj s u).1.db.observed =
      s.db.observed ∧
    (send_now_step env label nt formats true ctxObj s u).1.db.batches =
      s.db.batches ∧
    (∃ st, (send_now_step env label nt formats true ctxObj s u).1.trace =
      s.trace ++ [st] ∧ st.user = u.pk) := by
  unfold send_now_step
  dsimp only
  simp only [dictGet_gfm, if_pos h1, if_pos h2]
  by_cases hlz : env.lazyRendering = true
  · simp only [hlz, Bool.true_and, if_pos rfl]
    exact send_now_step_ok_aux env nt s u _ _ _ _ _ label ctxObj rfl hu
  · have hlzf : env.lazyRendering = false := by
      cases hq : env.lazyRendering with
      | false => rfl
      | true => exact absurd hq hlz
    simp only [hlzf, Bool.false_and, Bool.and_self, if_neg (by simp : ¬(false = true)),
      if_pos (h3 hlzf)]
    exact send_now_step_ok_aux env nt s u _ _ _ _ _ label ctxObj rfl hu

theorem send_now_loop_ok (env : Env) (label : String) (nt : NoticeType)
    (formats : List String) (ctxObj : Option Entity)
    (h1 : "short.txt" ∈ formats) (h2 : "full.txt" ∈ formats)
    (h3 : env.lazyRendering = false → "notice.html" ∈ formats) :
    ∀ (users : List UserRec) (s : SnState), SettingsUnique s.db.settings →
    ∃ sF, send_now_loop env label nt formats true ctxObj users s = (sF, none) ∧
      (∃ ns, sF.db.notices = s.db.notices ++ ns ∧
        ns.map (fun n => n.user) = users.map (fun u => u.pk) ∧
        ∀ n ∈ ns, n.unseen = true ∧ n.archived = false) ∧
      SettingsUnique sF.db.settings ∧
      sF.db.noticeTypes = s.db.noticeTypes ∧ sF.db.contexts = s.db.contexts ∧
      sF.db.observed = s.db.observed ∧ sF.db.batches = s.db.batches := by
  intro users
  induction users with
  | nil =>
    intro s hu
    exact ⟨s, rfl, ⟨[], by simp, rfl, by simp⟩, hu, rfl, rfl, rfl, rfl⟩
  | cons u rest ih =>
    intro s hu
    obtain ⟨he, ⟨msg, hnot⟩, hus, hnt, hcx, hob, hbt, st, htr, hstu⟩ :=
      send_now_step_ok env label nt formats ctxObj s u h1 h2 h3 hu
    rcases hstep : send_now_step env label nt formats true ctxObj s u with ⟨s1, e⟩
    rw [hstep] at he hnot hus hnt hcx hob hbt htr
    dsimp only at he hnot hus hnt hcx hob hbt htr
    subst he
    obtain ⟨sF, hloop, ⟨ns, hnotF, hmap, hflags⟩, husF, hntF, hcxF, hobF, hbtF⟩ :=
      ih s1 hus
    refine ⟨sF, ?_, ?_, husF, hntF.trans hnt, hcxF.trans hcx,
      hobF.trans hob, hbtF.trans hbt⟩
    · simp only [send_now_loop, hstep]
      exact hloop
    · refine ⟨mkNotice u.pk msg label true ctxObj :: ns, ?_, ?_, ?_⟩
      · rw [hnotF, hnot]
        simp
      · simp [hmap, mkNotice]
      · intro n hn
        rcases List.mem_cons.mp hn with hh | hh
        · subst hh; exact ⟨rfl, rfl⟩
        · exact hflags n hh

theorem send_now_ok (env : Env) (w : World) (users : List UserRec)
    (label : String) (ec : Option Ctx) (ctxObj : Option Entity) (nt : NoticeType)
    (hg : ormGet w.db.noticeTypes (fun t => t.label == label) = Got.found nt)
    (hu : SettingsUnique w.db.settings) :
    (send_now env w users label ec true ctxObj).err = none ∧
    (∃ ns, (send_now env w users label ec true ctxObj).db.notices =
        w.db.notices ++ ns ∧
      ns.map (fun n => n.user) = users.map (fun u => u.pk) ∧
      ∀ n ∈ ns, n.unseen = true ∧ n.archived = false) ∧
    SettingsUnique (send_now env w users label ec true ctxObj).db.settings ∧
    (send_now env w users label ec true ctxObj).db.noticeTypes =
      w.db.noticeTypes ∧
    (send_now env w users label ec true ctxObj).db.observed = w.db.observed ∧
    (send_now env w users label ec true ctxObj).db.batches = w.db.batches ∧
    (send_now env w users label ec true ctxObj).lang = w.lang := by
  have hg0 : ormGet (ctxAdd w.db ctxObj).noticeTypes (fun t => t.label == label) =
      Got.found nt := by rw [ctxAdd_noticeTypes]; exact hg
  obtain ⟨sF, hloop, ⟨ns, hnotF, hmap, hflags⟩, husF, hntF, hcxF, hobF, hbtF⟩ :=
    send_now_loop_ok env label nt (snFormats env true) ctxObj
      (snFormats_short env true) (snFormats_full env true)
      (fun hl => snFormats_notice env hl) users
      { db := ctxAdd w.db ctxObj, lang := w.lang, ec := ec.getD [], trace := [] }
      (by rw [ctxAdd_settings]; exact hu)
  unfold send_now send_now_core
  rw [hg0]
  dsimp only
  rw [hloop]
  dsimp only at hnotF husF hntF hcxF hobF hbtF ⊢
  refine ⟨rfl, ⟨ns, ?_, hmap, hflags⟩, husF, ?_, ?_, ?_, rfl⟩
  · rw [hnotF, ctxAdd_notices]
  · rw [hntF, ctxAdd_noticeTypes]
  · rw [hobF, ctxAdd_observed]
  · rw [hbtF, ctxAdd_batches]

/-! Supporting lemmas: evolution of `extra_context` through the loop. -/

theorem send_now_step_ec (env : Env) (label : String) (nt : NoticeType)
    (formats : List String) (on_site : Bool) (ctxObj : Option Entity)
    (s : SnState) (u : UserRec) :
    ((send_now_step env label nt formats on_site ctxObj s u).1.ec = s.ec ∧
     (send_now_step env label nt formats on_site ctxObj s u).1.trace = s.trace) ∨
    (∃ st subj, (send_now_step env label nt formats on_site ctxObj s u).1.trace =
        s.trace ++ [st] ∧
      (send_now_step env label nt formats on_site ctxObj s u).1.ec =
        (if st.fb then fbFill env s.ec subj (noticesUrlOf env) else s.ec)) := by
  unfold send_now_step
  dsimp only
  simp only [dictGet_gfm]
  by_cases hf1 : "short.txt" ∈ formats
  case neg => simp only [if_neg hf1]; exact Or.inl ⟨by simp, by simp⟩
  case pos =>
    simp only [if_pos hf1]
    by_cases hf2 : "full.txt" ∈ formats
    case neg => simp only [if_neg hf2]; exact Or.inl ⟨by simp, by simp⟩
    case pos =>
      simp only [if_pos hf2]
      by_cases hlz : (env.lazyRendering && on_site) = true
      case pos =>
        simp only [if_pos hlz]
        exact send_now_channels_ec env nt s u _ _ _ _
      case neg =>
        simp only [if_neg hlz]
        by_cases hf3 : "notice.html" ∈ formats
        case pos =>
          simp only [if_pos hf3]
          exact send_now_channels_ec env nt s u _ _ _ _
        case neg => simp only [if_neg hf3]; exact Or.inl ⟨by simp, by simp⟩

theorem send_now_step_ecInvar (env : Env) (label : String) (nt : NoticeType)
    (formats : List String) (on_site : Bool) (ctxObj : Option Entity)
    (s : SnState) (u : UserRec) (pic : String) (ec0 : Ctx)
    (hsp : env.sitePicture = some pic) (hI : EcInvar env pic ec0 s) :
    EcInvar env pic ec0 (send_now_step env label nt formats on_site ctxObj s u).1 := by
  obtain ⟨hKeys, hName, hLink, hPic, hPres⟩ := hI
  rcases send_now_step_ec env label nt formats on_site ctxObj s u with
    ⟨hec, htr⟩ | ⟨st, subj, htr, hec⟩
  · unfold EcInvar
    rw [hec, htr]
    exact ⟨hKeys, hName, hLink, hPic, hPres⟩
  · unfold EcInvar
    rw [htr, hec]
    cases hfb : st.fb with
    | false =>
      simp only [Bool.false_eq_true, if_false]
      refine ⟨?_, hName, hLink, hPic, hPres⟩
      rintro ⟨st', hmem, hfb'⟩
      rcases List.mem_append.mp hmem with hmem | hmem
      · exact hKeys ⟨st', hmem, hfb'⟩
      · have hst : st' = st := by simpa using hmem
        subst hst
        rw [hfb] at hfb'
        exact absurd hfb' (by simp)
    | true =>
      simp only [eq_self_iff_true, if_true]
      refine ⟨fun _ => fbFill_marks env s.ec subj (noticesUrlOf env) pic hsp,
        ?_, ?_, ?_, fun k v hk0 => fbFill_preserve env s.ec subj _ k v (hPres k v hk0)⟩
      · cases hk : ctxHasKey s.ec "name" with
        | false => exact Or.inr (fbFill_name_missing env s.ec subj _ hk)
        | true =>
          obtain ⟨v, hv⟩ := ctxHasKey_true_iff.mp hk
          have hp := fbFill_preserve env s.ec subj (noticesUrlOf env) "name" v hv
          rcases hName with h | h
          · exact Or.inl (hp.trans ((h.symm.trans hv).symm))
          · exact Or.inr (hp.trans (hv.symm.trans h))
      · cases hk : ctxHasKey s.ec "link" with
        | false => exact Or.inr (fbFill_link_missing env s.ec subj _ hk)
        | true =>
          obtain ⟨v, hv⟩ := ctxHasKey_true_iff.mp hk
          have hp := fbFill_preserve env s.ec subj (noticesUrlOf env) "link" v hv
          rcases hLink with h | h
          · exact Or.inl (hp.trans ((h.symm.trans hv).symm))
          · exact Or.inr (hp.trans (hv.symm.trans h))
      · cases hk : ctxHasKey s.ec "picture" with
        | false => exact Or.inr (fbFill_picture_missing env s.ec subj _ pic hsp hk)
        | true =>
          obtain ⟨v, hv⟩ := ctxHasKey_true_iff.mp hk
          have hp := fbFill_preserve env s.ec subj (noticesUrlOf env) "picture" v hv
          rcases hPic with h | h
          · exact Or.inl (hp.trans ((h.symm.trans hv).symm))
          · exact Or.inr (hp.trans (hv.symm.trans h))

theorem send_now_loop_ecInvar (env : Env) (label : String) (nt : NoticeType)
    (formats : List String) (on_site : Bool) (ctxObj : Option Entity)
    (pic : String) (ec0 : Ctx) (hsp : env.sitePicture = some pic) :
    ∀ (users : List UserRec) (s : SnState), EcInvar env pic ec0 s →
      EcInvar env pic ec0
        (send_now_loop env label nt formats on_site ctxObj users s).1 := by
  intro users
  induction users with
  | nil => intro s h; exact h
  | cons u rest ih =>
    intro s h
    have hstep := send_now_step_ecInvar env label nt formats on_site ctxObj s u
      pic ec0 hsp h
    rcases hst : send_now_step env label nt formats on_site ctxObj s u with ⟨s1, e⟩
    rw [hst] at hstep
    cases e with
    | some e' =>
      simp only [send_now_loop, hst]
      exact hstep
    | none =>
      simp only [send_now_loop, hst]
      exact ih s1 hstep

theorem EcInvar_start (env : Env) (pic : String) (ec0 : Ctx) (db : DB)
    (lang : String) : EcInvar env pic ec0 ⟨db, lang, ec0, []⟩ := by
  refine ⟨?_, Or.inl rfl, Or.inl rfl, Or.inl rfl, fun k v h => h⟩
  rintro ⟨st, hmem, _⟩
  simp at hmem

/-! Supporting lemmas: the queued path and its equivalence to direct
dispatch. -/

theorem send_now_loop_singleton (env : Env) (label : String) (nt : NoticeType)
    (formats : List String) (on_site : Bool) (ctxObj : Option Entity)
    (S : SnState) (x : UserRec) :
    send_now_loop env label nt formats on_site ctxObj [x] S =
      send_now_step env label nt formats on_site ctxObj S x := by
  unfold send_now_loop
  rcases h : send_now_step env label nt formats on_site ctxObj S x with ⟨s1, e⟩
  cases e with
  | some e' => rfl
  | none => rfl

theorem send_now_step_pres (env : Env) (label : String) (nt : NoticeType)
    (formats : List String) (on_site : Bool) (ctxObj : Option Entity)
    (s : SnState) (u : UserRec) :
    (send_now_step env label nt formats on_site ctxObj s u).1.db.noticeTypes =
      s.db.noticeTypes ∧
    (send_now_step env label nt formats on_site ctxObj s u).1.db.contexts =
      s.db.contexts := by
  unfold send_now_step
  dsimp only
  simp only [dictGet_gfm]
  by_cases hf1 : "short.txt" ∈ formats
  case neg => simp only [if_neg hf1]; exact ⟨by simp, by simp⟩
  case pos =>
    simp only [if_pos hf1]
    by_cases hf2 : "full.txt" ∈ formats
    case neg => simp only [if_neg hf2]; exact ⟨by simp, by simp⟩
    case pos =>
      simp only [if_pos hf2]
      by_cases hlz : (env.lazyRendering && on_site) = true
      case pos =>
        simp only [if_pos hlz]
        exact ⟨(send_now_channels_pres env nt s u _ _ _ _).1,
          (send_now_channels_pres env nt s u _ _ _ _).2.2.1⟩
      case neg =>
        simp only [if_neg hlz]
        by_cases hf3 : "notice.html" ∈ formats
        case pos =>
          simp only [if_pos hf3]
          exact ⟨(send_now_channels_pres env nt s u _ _ _ _).1,
            (send_now_channels_pres env nt s u _ _ _ _).2.2.1⟩
        case neg => simp only [if_neg hf3]; exact ⟨by simp, by simp⟩

theorem send_now_step_core (env : Env) (label : String) (nt : NoticeType)
    (formats : List String) (on_site : Bool) (ctxObj : Option Entity)
    (s t : SnState) (u v : UserRec) (hpk : u.pk = v.pk)
    (hc : s.db.core = t.db.core) :
    (send_now_step env label nt formats on_site ctxObj s u).1.db.core =
      (send_now_step env label nt formats on_site ctxObj t v).1.db.core ∧
    (send_now_step env label nt formats on_site ctxObj s u).2 =
      (send_now_step env label nt formats on_site ctxObj t v).2 := by
  have hnt : s.db.noticeTypes = t.db.noticeTypes := congrArg (fun x => x.1) hc
  have hset : s.db.settings = t.db.settings := congrArg (fun x => x.2.1) hc
  have hcx : s.db.contexts = t.db.contexts := congrArg (fun x => x.2.2.1) hc
  have how : s.db.notices.map (fun n => n.user) =
      t.db.notices.map (fun n => n.user) := congrArg (fun x => x.2.2.2) hc
  unfold send_now_step
  dsimp only
  simp only [dictGet_gfm]
  by_cases hf1 : "short.txt" ∈ formats
  case neg => simp only [if_neg hf1]; exact ⟨hc, by simp⟩
  case pos =>
    simp only [if_pos hf1]
    by_cases hf2 : "full.txt" ∈ formats
    case neg => simp only [if_neg hf2]; exact ⟨hc, by simp⟩
    case pos =>
      simp only [if_pos hf2]
      by_cases hlz : (env.lazyRendering && on_site) = true
      case pos =>
        simp only [if_pos hlz]
        apply send_now_channels_core
        · exact hpk
        · simp [DB.core, List.map_append, hnt, hset, hcx, how, hpk]
      case neg =>
        simp only [if_neg hlz]
        by_cases hf3 : "notice.html" ∈ formats
        case pos =>
          simp only [if_pos hf3]
          apply send_now_channels_core
          · exact hpk
          · simp [DB.core, List.map_append, hnt, hset, hcx, how, hpk]
        case neg => simp only [if_neg hf3]; exact ⟨hc, by simp⟩

theorem ctxAdd_mem (db : DB) (e : Entity) : e ∈ (ctxAdd db (some e)).contexts := by
  unfold ctxAdd
  dsimp only
  by_cases h : db.contexts.contains e = true
  · rw [if_pos h]
    simpa using h
  · rw [if_neg h]
    simp

theorem ctxAdd_noop_of_contexts (db : DB) (X : DB) (o : Option Entity)
    (hx : X.contexts = (ctxAdd db o).contexts) : ctxAdd X o = X := by
  cases o with
  | none => rfl
  | some e =>
    have he : e ∈ X.contexts := by rw [hx]; exact ctxAdd_mem db e
    unfold ctxAdd
    dsimp only
    rw [if_pos (by simpa using he)]

theorem ctxAdd_contexts_congr (db1 db2 : DB) (o : Option Entity)
    (h : db1.contexts = db2.contexts) :
    (ctxAdd db1 o).contexts = (ctxAdd db2 o).contexts := by
  cases o with
  | none => exact h
  | some e =>
    unfold ctxAdd
    dsimp only
    rw [h]
    split <;> simp [h]

theorem drain_items_core (env : Env) (label : String) (ec0 : Ctx)
    (on_site : Bool) (ctxObj : Option Entity) (nt : NoticeType)
    (henv : ∀ pk, (env.users pk).pk = pk) :
    ∀ (users : List UserRec) (wq : World) (s : SnState),
    (ctxAdd wq.db ctxObj).core = s.db.core →
    ormGet s.db.noticeTypes (fun t => t.label == label) = Got.found nt →
    (ctxAdd (drain_items env (users.map (fun u =>
        { userPk := u.pk, label := label, extraContext := ec0,
          on_site := on_site, context := ctxObj })) wq).1.db ctxObj).core =
      (send_now_loop env label nt (snFormats env on_site) on_site ctxObj
        users s).1.db.core ∧
    (drain_items env (users.map (fun u =>
        { userPk := u.pk, label := label, extraContext := ec0,
          on_site := on_site, context := ctxObj })) wq).2 =
      (send_now_loop env label nt (snFormats env on_site) on_site ctxObj
        users s).2 := by
  intro users
  induction users with
  | nil =>
    intro wq s hinv hfound
    exact ⟨hinv, rfl⟩
  | cons u rest ih =>
    intro wq s hinv hfound
    have hfq : ormGet (ctxAdd wq.db ctxObj).noticeTypes
        (fun t => t.label == label) = Got.found nt := by
      have h1 : (ctxAdd wq.db ctxObj).noticeTypes = s.db.noticeTypes :=
        congrArg (fun x => x.1) hinv
      rw [h1]; exact hfound
    have hsc := send_now_step_core env label nt (snFormats env on_site) on_site
      ctxObj ⟨ctxAdd wq.db ctxObj, wq.lang, ec0, []⟩ s (env.users u.pk) u
      (henv u.pk) hinv
    have hpq := send_now_step_pres env label nt (snFormats env on_site) on_site
      ctxObj ⟨ctxAdd wq.db ctxObj, wq.lang, ec0, []⟩ (env.users u.pk)
    have hpd := send_now_step_pres env label nt (snFormats env on_site) on_site
      ctxObj s u
    rcases hq : send_now_step env label nt (snFormats env on_site) on_site
        ctxObj ⟨ctxAdd wq.db ctxObj, wq.lang, ec0, []⟩ (env.users u.pk)
      with ⟨s1q, eq⟩
    rcases hd : send_now_step env label nt (snFormats env on_site) on_site
      ctxObj s u with ⟨s1d, ed⟩
    rw [hq, hd] at hsc
    rw [hq] at hpq
    rw [hd] at hpd
    dsimp only at hsc hpq hpd
    obtain ⟨hccore, herr⟩ := hsc
    subst herr
    have hnoop : ctxAdd s1q.db ctxObj = s1q.db :=
      ctxAdd_noop_of_contexts wq.db s1q.db ctxObj hpq.2
    simp only [List.map_cons, drain_items, send_now]
    unfold send_now_core
    rw [hfq]
    dsimp only
    simp only [Option.getD_some]
    rw [send_now_loop_singleton, hq]
    simp only [send_now_loop, hd]
    cases eq with
    | some e =>
      dsimp only
      refine ⟨?_, rfl⟩
      show (ctxAdd s1q.db ctxObj).core = s1d.db.core
      rw [hnoop]
      exact hccore
    | none =>
      dsimp only
      exact ih ⟨s1q.db, wq.lang⟩ s1d
        (by show (ctxAdd s1q.db ctxObj).core = s1d.db.core; rw [hnoop]; exact hccore)
        (by rw [hpd.1]; exact hfound)

theorem drain_one_batch (env : Env) (items : List QueueItem) (w' : World) :
    (drain_batches env [items] w').1.db.notices =
      (drain_items env items w').1.db.notices := by
  unfold drain_batches
  rcases h : drain_items env items w' with ⟨w1, e1⟩
  cases e1 with
  | some e => rfl
  | none => rfl

theorem send_now_core_db (env : Env) (db0 : DB) (lang0 : String)
    (users : List UserRec) (label : String) (ec0 : Ctx) (on_site : Bool)
    (ctxObj : Option Entity) :
    (send_now_core env db0 lang0 users label ec0 on_site ctxObj).db =
      (match ormGet db0.noticeTypes (fun t => t.label == label) with
       | Got.found nt => (send_now_loop env label nt (snFormats env on_site)
           on_site ctxObj users ⟨db0, lang0, ec0, []⟩).1.db
       | Got.missing => db0
       | Got.multiple => db0) := by
  unfold send_now_core
  cases hg : ormGet db0.noticeTypes (fun t => t.label == label) with
  | missing => rfl
  | multiple => rfl
  | found nt =>
    dsimp only
    rcases hl : send_now_loop env label nt (snFormats env on_site) on_site
      ctxObj users ⟨db0, lang0, ec0, []⟩ with ⟨sF, e⟩
    cases e <;> simp [hl]

theorem drain_items_notfound (env : Env) (label : String) (ec0 : Ctx)
    (on_site : Bool) (ctxObj : Option Entity) (users : List UserRec)
    (wq : World)
    (hgq : ormGet (ctxAdd wq.db ctxObj).noticeTypes
        (fun t => t.label == label) = Got.missing ∨
      ormGet (ctxAdd wq.db ctxObj).noticeTypes
        (fun t => t.label == label) = Got.multiple) :
    (drain_items env (users.map (fun u =>
        { userPk := u.pk, label := label, extraContext := ec0,
          on_site := on_site, context := ctxObj })) wq).1.db.notices =
      wq.db.notices := by
  cases users with
  | nil => rfl
  | cons u rest =>
    simp only [List.map_cons, drain_items, send_now]
    unfold send_now_core
    rcases hgq with hgq | hgq
    · rw [hgq]
      dsimp only
      rw [ctxAdd_notices]
    · rw [hgq]
      dsimp only
      rw [ctxAdd_notices]

/-! Claim theorems (with supporting lemmas). -/

/-- Claim C3: for a (user, notice_type, channel) triple never previously
resolved, `get_notification_setting` creates exactly one NoticeSetting whose
`send` equals `(channel_sensitivity <= notice_type.default)` (channel
sensitivities being the fixed table `NOTICE_MEDIA_DEFAULTS`, email "1" = 2,
social "2" = 3), and a second resolve of the same triple returns the same
stored value without creating a duplicate row. -/
theorem C3_resolve_default (db : DB) (user : Nat) (nt : NoticeType)
    (medium : String) (sens : Int)
    (hm : dictGet NOTICE_MEDIA_DEFAULTS medium = some sens)
    (h0 : db.settings.filter (settingMatches user nt.label medium) = []) :
    ∃ s db1,
      get_notification_setting db user nt medium = Except.ok (s, db1) ∧
      s.send = decide (sens ≤ nt.default) ∧
      db1.settings.filter (settingMatches user nt.label medium) = [s] ∧
      get_notification_setting db1 user nt medium = Except.ok (s, db1) := by
  refine ⟨⟨user, nt.label, medium, decide (sens ≤ nt.default)⟩,
    { db with settings := db.settings ++
        [⟨user, nt.label, medium, decide (sens ≤ nt.default)⟩] }, ?_, rfl, ?_, ?_⟩
  · simp [get_notification_setting, gnsList, ormGet, h0, hm]
  · simp [List.filter_append, h0, settingMatches]
  · simp [get_notification_setting, gnsList, ormGet, List.filter_append, h0, settingMatches]

/-- Witness for C3: resolving (user 1, `welcome`, email) on an empty settings
table creates the setting with send = (2 <= 2) = true, and resolving again
returns the same stored row. -/
theorem C3_witness :
    dictGet NOTICE_MEDIA_DEFAULTS "1" = some 2 ∧
    dbW.settings.filter (settingMatches 1 ntW.label "1") = [] ∧
    ∃ s db1,
      get_notification_setting dbW 1 ntW "1" = Except.ok (s, db1) ∧
      s.send = decide ((2 : Int) ≤ ntW.default) ∧
      db1.settings.filter (settingMatches 1 ntW.label "1") = [s] ∧
      get_notification_setting db1 1 ntW "1" = Except.ok (s, db1) :=
  ⟨rfl, rfl, C3_resolve_default dbW 1 ntW "1" 2 rfl rfl⟩

/-- Claim C5: `send` with both `queue=true` and `now=true` raises the
assertion (`InvalidArgument`); with exactly one flag set it routes to `queue`
or `send_now` respectively; with neither set it routes according to the
global `NOTIFICATION_QUEUE_ALL` flag. -/
theorem C5_send_router (env : Env) (w : World) (users : List UserRec)
    (label : String) (ec : Option Ctx) (on_site : Bool) (ctxObj : Option Entity) :
    send env w users label ec on_site ctxObj true true =
      Except.error Err.assertionError ∧
    send env w users label ec on_site ctxObj true false =
      Except.ok (queueResult w users label ec on_site ctxObj) ∧
    send env w users label ec on_site ctxObj false true =
      Except.ok (send_now env w users label ec on_site ctxObj) ∧
    send env w users label ec on_site ctxObj false false =
      (if env.queueAll then Except.ok (queueResult w users label ec on_site ctxObj)
       else Except.ok (send_now env w users label ec on_site ctxObj)) := by
  refine ⟨rfl, rfl, rfl, ?_⟩
  simp [send]

/-- Claim C7: for a Notice with `unseen = true`, the first `is_unseen` read
returns true and flips the flag to false; the second read returns false and
leaves it false (one-shot transition). -/
theorem C7_unseen_one_shot (n : Notice) (h : n.unseen = true) :
    n.is_unseen.1 = true ∧ n.is_unseen.2.unseen = false ∧
    n.is_unseen.2.is_unseen.1 = false ∧
    n.is_unseen.2.is_unseen.2.unseen = false := by
  simp [Notice.is_unseen, h]

/-- Witness for C7 at a concrete unseen notice. -/
theorem C7_witness :
    noticeW.unseen = true ∧
    noticeW.is_unseen.1 = true ∧ noticeW.is_unseen.2.unseen = false ∧
    noticeW.is_unseen.2.is_unseen.1 = false ∧
    noticeW.is_unseen.2.is_unseen.2.unseen = false :=
  ⟨rfl, C7_unseen_one_shot noticeW rfl⟩

/-- Claim C8: `is_observing` returns false for an anonymous observer
regardless of the subscription table, and returns true for an authenticated
observer as soon as at least one matching (entity, observer, signal)
subscription row exists (also when duplicates exist). -/
theorem C8_is_observing :
    (∀ (db : DB) (e : Entity) (signal : String),
      is_observing db e Observer.anon signal = false) ∧
    (∀ (db : DB) (e : Entity) (pk : Nat) (signal : String),
      1 ≤ (db.observed.filter (obsMatches e pk signal)).length →
      is_observing db e (Observer.auth pk) signal = true) := by
  constructor
  · intro db e signal; rfl
  · intro db e pk signal h
    rcases hf : db.observed.filter (obsMatches e pk signal) with _ | ⟨a, _ | ⟨b, t⟩⟩
    · rw [hf] at h; simp at h
    · simp [is_observing, get_for, ormGet, hf]
    · simp [is_observing, get_for, ormGet, hf]

/-- Witness for C8: anonymous observer gets false on a table that does hold a
matching subscription; the subscribed user 5 gets true. -/
theorem C8_witness :
    is_observing dbObsW entityW Observer.anon "post_save" = false ∧
    1 ≤ (dbObsW.observed.filter (obsMatches entityW 5 "post_save")).length ∧
    is_observing dbObsW entityW (Observer.auth 5) "post_save" = true :=
  ⟨C8_is_observing.1 dbObsW entityW "post_save", by decide,
   C8_is_observing.2 dbObsW entityW 5 "post_save" (by decide)⟩

/-- Replacing the (unique) element matched by `p` through a map leaves the
filter residue of the unmatched elements empty. -/
theorem filter_map_keep {α : Type} (p : α → Bool) (y : α) :
    ∀ l : List α, (∀ a ∈ l, p a = false) →
      (l.map (fun t => if p t then y else t)).filter p = [] := by
  intro l
  induction l with
  | nil => intro _; rfl
  | cons a as ih =>
    intro h
    have ha : p a = false := h a (List.mem_cons_self a as)
    simp only [List.map_cons]
    rw [if_neg (by simp [ha])]
    simp only [List.filter_cons, ha, Bool.false_eq_true, if_false]
    exact ih (fun b hb => h b (List.mem_cons_of_mem a hb))

/-- Mapping the replace-if-matched function over a list whose filter is the
singleton `[nt]` yields a list whose filter is the replacement singleton. -/
theorem filter_map_replace {α : Type} (p : α → Bool) (y : α) (hy : p y = true) :
    ∀ (l : List α) (nt : α), l.filter p = [nt] →
      (l.map (fun t => if p t then y else t)).filter p = [y] := by
  intro l
  induction l with
  | nil => intro nt h; simp at h
  | cons a as ih =>
    intro nt h
    by_cases ha : p a
    · simp [List.filter_cons, ha] at h
      simp only [List.map_cons]
      rw [if_pos ha]
      rw [List.filter_cons, if_pos hy]
      rw [filter_map_keep p y as h.2]
    · simp [List.filter_cons, ha] at h
      simp only [List.map_cons]
      rw [if_neg ha]
      simp [List.filter_cons, ha]
      exact ih nt h

/-- The update branch of `create_notice_type` (lines 207-226): when the label
is already registered with at least one differing field, the row is rewritten
to the given field values and the "Updated" line is printed only when
`verbosity > 1`. -/
theorem create_notice_type_update (db : DB) (label display description : String)
    (dflt : Int) (v : Nat) (ntd nts : String) (ntf : Int)
    (hg : ormGet db.noticeTypes (fun t => t.label == label) =
      Got.found ⟨label, ntd, nts, ntf⟩)
    (hne : ¬(display = ntd ∧ description = nts ∧ dflt = ntf)) :
    create_notice_type db label display description dflt v =
      Except.ok
        ({ db with noticeTypes := db.noticeTypes.map (fun t =>
             if t.label == label then ⟨label, display, description, dflt⟩
             else t) },
         if v > 1 then some ("Updated " ++ label ++ " NoticeType") else none) := by
  by_cases hd : display = ntd
  <;> by_cases hs : description = nts
  <;> by_cases hdf : dflt = ntf
  · exact absurd ⟨hd, hs, hdf⟩ hne
  all_goals simp [create_notice_type, hg, hd, hs, hdf, bne_iff_ne]

/-- Counterexample for C9: with the default verbosity (1), a call of
`create_notice_type` that creates a new NoticeType returns no indication at
all that it created one — the only created-vs-updated report in the code is a
print, emitted just when `verbosity > 1`; the function returns nothing to the
caller. -/
theorem C9_no_report_to_caller :
    create_notice_type dbEmpty "welcome" "Welcome" "a welcome notice" 2 1 =
      Except.ok (dbW, none) := by
  rfl

/-- Claim C9 (amended): `create_notice_type` is an idempotent upsert keyed by
label.  From any state holding at most one NoticeType of the label (the
uniqueness `keyed by label` presupposes — `objects.get` raises an uncaught
MultipleObjectsReturned on duplicates), one call leaves exactly one
NoticeType of that label carrying the given field values, whether it had to
create the row or update an existing one; any report is only printed, and
only when `verbosity > 1`; an immediate second call with the same arguments
changes nothing and reports nothing; no created-vs-updated indication is
returned to the caller. -/
theorem C9_upsert (db : DB) (label display description : String) (dflt : Int)
    (v : Nat)
    (hu : (db.noticeTypes.filter (fun t => t.label == label)).length ≤ 1) :
    ∃ db1 out,
      create_notice_type db label display description dflt v =
        Except.ok (db1, out) ∧
      db1.noticeTypes.filter (fun t => t.label == label) =
        [⟨label, display, description, dflt⟩] ∧
      (out.isSome → v > 1) ∧
      create_notice_type db1 label display description dflt v =
        Except.ok (db1, none) := by
  rcases hf2 : db.noticeTypes.filter (fun t => t.label == label)
    with _ | ⟨nt, rest⟩
  · refine ⟨{ db with noticeTypes := db.noticeTypes ++
        [⟨label, display, description, dflt⟩] },
      if v > 1 then some ("Created " ++ label ++ " NoticeType") else none,
      ?_, ?_, ?_, ?_⟩
    · simp [create_notice_type, ormGet, hf2]
    · simp [List.filter_append, hf2]
    · intro h
      by_cases hv : v > 1
      · exact hv
      · simp [hv] at h
    · simp [create_notice_type, ormGet, List.filter_append, hf2]
  · rcases rest with _ | ⟨x, xs⟩
    · obtain ⟨ntl, ntd, nts, ntf⟩ := nt
      have hlab : ntl = label := by
        have hmem : (⟨ntl, ntd, nts, ntf⟩ : NoticeType) ∈
            db.noticeTypes.filter (fun t => t.label == label) := by
          rw [hf2]; exact List.mem_singleton_self _
        simpa using List.of_mem_filter hmem
      rw [hlab] at hf2
      have hg : ormGet db.noticeTypes (fun t => t.label == label) =
          Got.found ⟨label, ntd, nts, ntf⟩ := by
        unfold ormGet; rw [hf2]
      by_cases heq : display = ntd ∧ description = nts ∧ dflt = ntf
      · obtain ⟨hd, hs, hdf⟩ := heq
        rw [← hd, ← hs, ← hdf] at hf2 hg
        exact ⟨db, none, by simp [create_notice_type, hg], hf2,
          fun h => by simp at h, by simp [create_notice_type, hg]⟩
      · have hflt : (db.noticeTypes.map (fun t =>
            if t.label == label then
              (⟨label, display, description, dflt⟩ : NoticeType)
            else t)).filter (fun t => t.label == label) =
            [⟨label, display, description, dflt⟩] :=
          filter_map_replace (fun t => t.label == label)
            ⟨label, display, description, dflt⟩ (by simp) db.noticeTypes
            ⟨label, ntd, nts, ntf⟩ hf2
        have hg2 : ormGet (db.noticeTypes.map (fun t =>
            if t.label == label then
              (⟨label, display, description, dflt⟩ : NoticeType)
            else t)) (fun t => t.label == label) =
            Got.found ⟨label, display, description, dflt⟩ := by
          unfold ormGet; rw [hflt]
        refine ⟨{ db with noticeTypes := db.noticeTypes.map (fun t =>
            if t.label == label then ⟨label, display, description, dflt⟩
            else t) },
          if v > 1 then some ("Updated " ++ label ++ " NoticeType") else none,
          create_notice_type_update db label display description dflt v
            ntd nts ntf hg heq, hflt, ?_, ?_⟩
        · intro h
          by_cases hv : v > 1
          · exact hv
          · simp [hv] at h
        · unfold create_notice_type
          dsimp only
          rw [hg2]
          simp
    · rw [hf2] at hu
      simp only [List.length_cons] at hu
      omega

/-- Witness for C9 (amended): updating `welcome`'s display on a registry
already holding it, at verbosity 2, leaves exactly one `welcome` NoticeType
with the new values; the second identical call is a no-op with no output. -/
theorem C9_witness :
    (dbW.noticeTypes.filter (fun t => t.label == "welcome")).length ≤ 1 ∧
    ∃ db1 out,
      create_notice_type dbW "welcome" "Hello" "a welcome notice" 2 2 =
        Except.ok (db1, out) ∧
      db1.noticeTypes.filter (fun t => t.label == "welcome") =
        [⟨"welcome", "Hello", "a welcome notice", 2⟩] ∧
      (out.isSome → 2 > 1) ∧
      create_notice_type db1 "welcome" "Hello" "a welcome notice" 2 2 =
        Except.ok (db1, none) :=
  ⟨by decide, C9_upsert dbW "welcome" "Hello" "a welcome notice" 2 2 (by decide)⟩

/-- Claim C2: for every sequence of N recipients and every registered label
(and a well-formed settings table), `send_now` creates exactly N Notice
records, in order one per recipient, owned by the respective recipient, each
with `unseen = true` and `archived = false`. -/
theorem C2_dispatch_creates_notices (env : Env) (w : World)
    (users : List UserRec) (label : String) (ec : Option Ctx)
    (ctxObj : Option Entity) (nt : NoticeType)
    (hg : ormGet w.db.noticeTypes (fun t => t.label == label) = Got.found nt)
    (hu : SettingsUnique w.db.settings) :
    (send_now env w users label ec true ctxObj).err = none ∧
    ∃ ns, (send_now env w users label ec true ctxObj).db.notices =
        w.db.notices ++ ns ∧
      ns.length = users.length ∧
      ns.map (fun n => n.user) = users.map (fun u => u.pk) ∧
      ∀ n ∈ ns, n.unseen = true ∧ n.archived = false := by
  obtain ⟨he, ⟨ns, hnot, hmap, hflags⟩, _⟩ :=
    send_now_ok env w users label ec ctxObj nt hg hu
  refine ⟨he, ns, hnot, ?_, hmap, hflags⟩
  have hlen := congrArg List.length hmap
  simpa using hlen

/-- Witness for C2: dispatching `welcome` to two concrete users creates two
notices, owned by users 1 and 2, unseen and unarchived. -/
theorem C2_witness :
    ormGet dbW.noticeTypes (fun t => t.label == "welcome") = Got.found ntW ∧
    SettingsUnique dbW.settings ∧
    ((send_now envW ⟨dbW, "en"⟩ [userW, user2W] "welcome" none true none).err =
      none ∧
    ∃ ns, (send_now envW ⟨dbW, "en"⟩ [userW, user2W] "welcome" none true
        none).db.notices = dbW.notices ++ ns ∧
      ns.length = [userW, user2W].length ∧
      ns.map (fun n => n.user) = [userW, user2W].map (fun u => u.pk) ∧
      ∀ n ∈ ns, n.unseen = true ∧ n.archived = false) :=
  ⟨rfl, SettingsUnique_nil,
   C2_dispatch_creates_notices envW ⟨dbW, "en"⟩ [userW, user2W] "welcome"
     none none ntW rfl SettingsUnique_nil⟩

/-- Claim C10: when the social channel fires for some recipient during a
`send_now` call (a trace entry with `fb = true`; this requires profiles to be
activated) and a site picture is configured, the caller-supplied
`extra_context` mapping as returned by the call contains the keys "name",
"description", "link" and "picture"; the keys among "name", "link", "picture"
that were missing in the caller's mapping now hold the engine-computed
defaults (site domain, notices url, configured picture); and every
caller-supplied binding is still intact (the call only inserts).  Because
bindings are never removed, the inserted keys are also seen by every
recipient processed after the insertion. -/
theorem C10_social_branch_fills_extra_context (env : Env) (w : World)
    (users : List UserRec) (label : String) (ec : Option Ctx) (on_site : Bool)
    (ctxObj : Option Entity) (pic : String)
    (hprof : env.profilesActivated = true)
    (hsp : env.sitePicture = some pic)
    (hfb : ∃ st ∈ (send_now env w users label ec on_site ctxObj).trace,
      st.fb = true) :
    (ctxHasKey (send_now env w users label ec on_site ctxObj).ec "name" = true ∧
     ctxHasKey (send_now env w users label ec on_site ctxObj).ec "description" = true ∧
     ctxHasKey (send_now env w users label ec on_site ctxObj).ec "link" = true ∧
     ctxHasKey (send_now env w users label ec on_site ctxObj).ec "picture" = true) ∧
    (ctxHasKey (ec.getD []) "name" = false →
      dictGet (send_now env w users label ec on_site ctxObj).ec "name" =
        some (CtxVal.str env.siteDomain)) ∧
    (ctxHasKey (ec.getD []) "link" = false →
      dictGet (send_now env w users label ec on_site ctxObj).ec "link" =
        some (CtxVal.str (noticesUrlOf env))) ∧
    (ctxHasKey (ec.getD []) "picture" = false →
      dictGet (send_now env w users label ec on_site ctxObj).ec "picture" =
        some (CtxVal.str pic)) ∧
    (∀ k v, dictGet (ec.getD []) k = some v →
      dictGet (send_now env w users label ec on_site ctxObj).ec k = some v) := by
  unfold send_now send_now_core at hfb ⊢
  cases hg : ormGet (ctxAdd w.db ctxObj).noticeTypes (fun t => t.label == label) with
  | missing => rw [hg] at hfb; simp at hfb
  | multiple => rw [hg] at hfb; simp at hfb
  | found nt =>
    rw [hg] at hfb
    dsimp only at hfb ⊢
    have hinv := send_now_loop_ecInvar env label nt (snFormats env on_site)
      on_site ctxObj pic (ec.getD []) hsp users
      { db := ctxAdd w.db ctxObj, lang := w.lang, ec := ec.getD [], trace := [] }
      (EcInvar_start env pic (ec.getD []) (ctxAdd w.db ctxObj) w.lang)
    rcases hl : send_now_loop env label nt (snFormats env on_site) on_site ctxObj
        users { db := ctxAdd w.db ctxObj, lang := w.lang, ec := ec.getD [], trace := [] }
      with ⟨sF, e⟩
    rw [hl] at hfb hinv
    obtain ⟨hKeys, hName, hLink, hPic, hPres⟩ := hinv
    have hfb' : ∃ st ∈ sF.trace, st.fb = true := by
      cases e with
      | none => exact hfb
      | some e' => exact hfb
    have hks := hKeys hfb'
    cases e with
    | none =>
      refine ⟨hks, ?_, ?_, ?_, hPres⟩
      · intro hmiss
        rcases hName with h | h
        · rw [ctxHasKey_false_iff.mp hmiss] at h
          rw [ctxHasKey_true_iff] at hks
          obtain ⟨v, hv⟩ := hks.1
          rw [hv] at h
          exact absurd h (by simp)
        · exact h
      · intro hmiss
        rcases hLink with h | h
        · rw [ctxHasKey_false_iff.mp hmiss] at h
          obtain ⟨v, hv⟩ := ctxHasKey_true_iff.mp hks.2.2.1
          rw [hv] at h
          exact absurd h (by simp)
        · exact h
      · intro hmiss
        rcases hPic with h | h
        · rw [ctxHasKey_false_iff.mp hmiss] at h
          obtain ⟨v, hv⟩ := ctxHasKey_true_iff.mp hks.2.2.2
          rw [hv] at h
          exact absurd h (by simp)
        · exact h
    | some e' =>
      refine ⟨hks, ?_, ?_, ?_, hPres⟩
      · intro hmiss
        rcases hName with h | h
        · rw [ctxHasKey_false_iff.mp hmiss] at h
          rw [ctxHasKey_true_iff] at hks
          obtain ⟨v, hv⟩ := hks.1
          rw [hv] at h
          exact absurd h (by simp)
        · exact h
      · intro hmiss
        rcases hLink with h | h
        · rw [ctxHasKey_false_iff.mp hmiss] at h
          obtain ⟨v, hv⟩ := ctxHasKey_true_iff.mp hks.2.2.1
          rw [hv] at h
          exact absurd h (by simp)
        · exact h
      · intro hmiss
        rcases hPic with h | h
        · rw [ctxHasKey_false_iff.mp hmiss] at h
          obtain ⟨v, hv⟩ := ctxHasKey_true_iff.mp hks.2.2.2
          rw [hv] at h
          exact absurd h (by simp)
        · exact h

/-- Witness for C10: with profiles activated, a configured site picture and a
notice type whose default 3 turns the social medium on, dispatching to one
user fills the four facebook keys into the (initially empty) extra context. -/
theorem C10_witness :
    envFbW.profilesActivated = true ∧
    envFbW.sitePicture = some "pic.png" ∧
    (∃ st ∈ (send_now envFbW ⟨dbFbW, "en"⟩ [userW] "welcome" none true
      none).trace, st.fb = true) ∧
    ((ctxHasKey (send_now envFbW ⟨dbFbW, "en"⟩ [userW] "welcome" none true
        none).ec "name" = true ∧
      ctxHasKey (send_now envFbW ⟨dbFbW, "en"⟩ [userW] "welcome" none true
        none).ec "description" = true ∧
      ctxHasKey (send_now envFbW ⟨dbFbW, "en"⟩ [userW] "welcome" none true
        none).ec "link" = true ∧
      ctxHasKey (send_now envFbW ⟨dbFbW, "en"⟩ [userW] "welcome" none true
        none).ec "picture" = true) ∧
     (ctxHasKey ((none : Option Ctx).getD []) "name" = false →
       dictGet (send_now envFbW ⟨dbFbW, "en"⟩ [userW] "welcome" none true
         none).ec "name" = some (CtxVal.str envFbW.siteDomain)) ∧
     (ctxHasKey ((none : Option Ctx).getD []) "link" = false →
       dictGet (send_now envFbW ⟨dbFbW, "en"⟩ [userW] "welcome" none true
         none).ec "link" = some (CtxVal.str (noticesUrlOf envFbW))) ∧
     (ctxHasKey ((none : Option Ctx).getD []) "picture" = false →
       dictGet (send_now envFbW ⟨dbFbW, "en"⟩ [userW] "welcome" none true
         none).ec "picture" = some (CtxVal.str "pic.png")) ∧
     (∀ k v, dictGet ((none : Option Ctx).getD []) k = some v →
       dictGet (send_now envFbW ⟨dbFbW, "en"⟩ [userW] "welcome" none true
         none).ec k = some v)) :=
  ⟨rfl, rfl, by decide,
   C10_social_branch_fills_extra_context envFbW ⟨dbFbW, "en"⟩ [userW] "welcome"
     none true none "pic.png" rfl rfl (by decide)⟩

/-- Claim C6: from a state with a registered label, no subscription on the
entity's `post_save` signal, immediate-mode routing (`queueAll = false`), a
pk-consistent user table and a well-formed settings table: `observe` creates
a subscription; one `notify_observers` (`send_observation_notices_for`) run
processes exactly that subscription and dispatches exactly one notice, owned
by the observer; `stop_observing` then removes the subscription, and a
subsequent run processes no subscription and creates no notice. -/
theorem C6_observe_notify_stop (env : Env) (w : World) (entity : Entity)
    (observer : UserRec) (label : String) (nt : NoticeType)
    (hg : ormGet w.db.noticeTypes (fun t => t.label == label) = Got.found nt)
    (hobs : all_for w.db entity "post_save" = [])
    (hq : env.queueAll = false)
    (henv : (env.users observer.pk).pk = observer.pk)
    (hu : SettingsUnique w.db.settings) :
    ∃ item db1, observe w.db entity observer label "post_save" =
        Except.ok (item, db1) ∧
      (send_observation_notices_for env ⟨db1, w.lang⟩ entity "post_save").2.1 =
        [item] ∧
      (send_observation_notices_for env ⟨db1, w.lang⟩ entity "post_save").2.2 =
        none ∧
      (∃ n, (send_observation_notices_for env ⟨db1, w.lang⟩ entity
          "post_save").1.db.notices = w.db.notices ++ [n] ∧
        n.user = observer.pk) ∧
      (∃ db3, stop_observing (send_observation_notices_for env ⟨db1, w.lang⟩
            entity "post_save").1.db entity observer "post_save" =
          Except.ok db3 ∧
        (send_observation_notices_for env ⟨db3, w.lang⟩ entity
          "post_save").2.1 = [] ∧
        (send_observation_notices_for env ⟨db3, w.lang⟩ entity
          "post_save").2.2 = none ∧
        (send_observation_notices_for env ⟨db3, w.lang⟩ entity
            "post_save").1.db.notices =
          (send_observation_notices_for env ⟨db1, w.lang⟩ entity
            "post_save").1.db.notices) := by
  have hobs' : w.db.observed.filter
      (fun it => it.entity == entity && it.signal == "post_save") = [] := hobs
  have hall := List.filter_eq_nil_iff.mp hobs'
  have hitems : all_for { w.db with observed := w.db.observed ++ [⟨observer.pk, entity, label, "post_save"⟩] } entity "post_save" = [⟨observer.pk, entity, label, "post_save"⟩] := by
    unfold all_for
    dsimp only
    rw [List.filter_append, hobs']
    simp
  obtain ⟨herr, ⟨ns, hnot, hmap, _hfl⟩, _hsu, _hnt, hobF, _hbt, _hlg⟩ :=
    send_now_ok env ⟨{ w.db with observed := w.db.observed ++ [⟨observer.pk, entity, label, "post_save"⟩] }, w.lang⟩ [env.users observer.pk] label (some [("observed", CtxVal.ent entity)]) none nt hg hu
  dsimp only at hnot hobF
  obtain ⟨n, hns, hnu⟩ : ∃ n, ns = [n] ∧ n.user = observer.pk := by
    rcases ns with _ | ⟨n, t⟩
    · simp at hmap
    · rcases t with _ | ⟨m, t2⟩
      · simp at hmap
        exact ⟨n, rfl, hmap.trans henv⟩
      · simp at hmap
  rw [hns] at hnot
  have hC : send_observation_notices_for env ⟨{ w.db with observed := w.db.observed ++ [⟨observer.pk, entity, label, "post_save"⟩] }, w.lang⟩ entity "post_save" = ({ db := (send_now env ⟨{ w.db with observed := w.db.observed ++ [⟨observer.pk, entity, label, "post_save"⟩] }, w.lang⟩ [env.users observer.pk] label (some [("observed", CtxVal.ent entity)]) true none).db, lang := (send_now env ⟨{ w.db with observed := w.db.observed ++ [⟨observer.pk, entity, label, "post_save"⟩] }, w.lang⟩ [env.users observer.pk] label (some [("observed", CtxVal.ent entity)]) true none).lang }, [⟨observer.pk, entity, label, "post_save"⟩], none) := by
    unfold send_observation_notices_for
    rw [hitems]
    unfold son_loop send_notice
    dsimp only
    unfold send
    rw [hq]
    simp only [Bool.false_and, Bool.false_eq_true, if_false]
    rw [herr]
    rfl
  have hobsM : w.db.observed.filter (obsMatches entity observer.pk "post_save") = [] := by
    rw [List.filter_eq_nil_iff]
    intro a ha hpa
    apply hall a ha
    simp only [obsMatches, Bool.and_eq_true, beq_iff_eq] at hpa
    simp [hpa.1.1, hpa.2]
  have hitemnot : (⟨observer.pk, entity, label, "post_save"⟩ : ObservedItem) ∉ w.db.observed := by
    intro hmem
    exact hall _ hmem (by simp)
  have herase : ((send_now env ⟨{ w.db with observed := w.db.observed ++ [⟨observer.pk, entity, label, "post_save"⟩] }, w.lang⟩ [env.users observer.pk] label (some [("observed", CtxVal.ent entity)]) true none).db.observed).erase ⟨observer.pk, entity, label, "post_save"⟩ = w.db.observed := by
    rw [hobF, List.erase_append_right _ hitemnot, List.erase_cons_head]
    simp
  have hfil2 : (send_now env ⟨{ w.db with observed := w.db.observed ++ [⟨observer.pk, entity, label, "post_save"⟩] }, w.lang⟩ [env.users observer.pk] label (some [("observed", CtxVal.ent entity)]) true none).db.observed.filter (obsMatches entity observer.pk "post_save") = [⟨observer.pk, entity, label, "post_save"⟩] := by
    rw [hobF, List.filter_append, hobsM]
    simp [obsMatches]
  refine ⟨⟨observer.pk, entity, label, "post_save"⟩, { w.db with observed := w.db.observed ++ [⟨observer.pk, entity, label, "post_save"⟩] }, ?_, ?_, ?_, ?_, ?_⟩
  · unfold observe
    rw [hg]
  · rw [hC]
  · rw [hC]
  · refine ⟨n, ?_, hnu⟩
    rw [hC]
    dsimp only
    exact hnot
  · refine ⟨{ (send_now env ⟨{ w.db with observed := w.db.observed ++ [⟨observer.pk, entity, label, "post_save"⟩] }, w.lang⟩ [env.users observer.pk] label (some [("observed", CtxVal.ent entity)]) true none).db with observed := w.db.observed }, ?_, ?_, ?_, ?_⟩
    · rw [hC]
      dsimp only
      unfold stop_observing get_for ormGet
      rw [hfil2]
      dsimp only
      rw [herase]
    · unfold send_observation_notices_for all_for
      dsimp only
      rw [hobs']
    · unfold send_observation_notices_for all_for
      dsimp only
      rw [hobs']
      rfl
    · rw [hC]
      unfold send_observation_notices_for all_for
      dsimp only
      rw [hobs']
      rfl

/-- Witness for C6 at concrete values: registering user 1 as observer of
`entityW` in `dbW`, notifying, stopping and notifying again. -/
theorem C6_witness :
    ormGet dbW.noticeTypes (fun t => t.label == "welcome") = Got.found ntW ∧
    all_for dbW entityW "post_save" = [] ∧
    envW.queueAll = false ∧
    (envW.users userW.pk).pk = userW.pk ∧
    SettingsUnique dbW.settings ∧
    (∃ item db1, observe dbW entityW userW "welcome" "post_save" =
        Except.ok (item, db1) ∧
      (send_observation_notices_for envW ⟨db1, "en"⟩ entityW "post_save").2.1 =
        [item] ∧
      (send_observation_notices_for envW ⟨db1, "en"⟩ entityW "post_save").2.2 =
        none ∧
      (∃ n, (send_observation_notices_for envW ⟨db1, "en"⟩ entityW
          "post_save").1.db.notices = dbW.notices ++ [n] ∧
        n.user = userW.pk) ∧
      (∃ db3, stop_observing (send_observation_notices_for envW ⟨db1, "en"⟩
            entityW "post_save").1.db entityW userW "post_save" =
          Except.ok db3 ∧
        (send_observation_notices_for envW ⟨db3, "en"⟩ entityW
          "post_save").2.1 = [] ∧
        (send_observation_notices_for envW ⟨db3, "en"⟩ entityW
          "post_save").2.2 = none ∧
        (send_observation_notices_for envW ⟨db3, "en"⟩ entityW
            "post_save").1.db.notices =
          (send_observation_notices_for envW ⟨db1, "en"⟩ entityW
            "post_save").1.db.notices)) :=
  ⟨rfl, rfl, rfl, rfl, SettingsUnique_nil,
   C6_observe_notify_stop envW ⟨dbW, "en"⟩ entityW userW "welcome" ntW rfl rfl
     rfl rfl SettingsUnique_nil⟩

/-- Counterexample for C4: the rendering locale is NOT restored between
recipients.  With process language "en", recipient 1 having stored language
"fr" and recipient 2 having no stored language, recipient 2 is processed
under "fr" — the locale activated for the previous recipient — not under the
pre-loop locale "en". -/
theorem C4_locale_leak_between_recipients :
    envFrW.languageOf 2 = none ∧ ("fr" : String) ≠ "en" ∧
    ((send_now envFrW ⟨dbW, "en"⟩ [userW, user2W] "welcome" none true
        none).trace.map (fun st => (st.user, st.lang))) =
      [(1, "fr"), (2, "fr")] := by
  refine ⟨rfl, by decide, rfl⟩

/-- Claim C4 (amended): `send_now` restores the process-wide rendering locale
to its pre-loop value only after the whole recipient loop has completed
without raising; within the loop the locale is not reset between recipients,
so a recipient with no stored language is processed under the most recently
activated locale (possibly a previous recipient's). -/
theorem C4_locale_restored_after_loop (env : Env) (w : World)
    (users : List UserRec) (label : String) (ec : Option Ctx) (on_site : Bool)
    (ctxObj : Option Entity)
    (h : (send_now env w users label ec on_site ctxObj).err = none) :
    (send_now env w users label ec on_site ctxObj).lang = w.lang := by
  unfold send_now send_now_core at h ⊢
  cases hg : ormGet (ctxAdd w.db ctxObj).noticeTypes (fun t => t.label == label) with
  | missing => rfl
  | multiple => rfl
  | found nt =>
    rw [hg] at h
    dsimp only at h ⊢
    rcases hl : send_now_loop env label nt (snFormats env on_site) on_site ctxObj
        users { db := ctxAdd w.db ctxObj, lang := w.lang, ec := ec.getD [], trace := [] }
      with ⟨sF, e⟩
    cases e with
    | none => rfl
    | some e' => rw [hl] at h; simp at h

/-- Witness for C4 (amended): a completing dispatch hands the process
language back unchanged. -/
theorem C4_witness :
    (send_now envW ⟨dbW, "en"⟩ [userW] "welcome" none true none).err = none ∧
    (send_now envW ⟨dbW, "en"⟩ [userW] "welcome" none true none).lang = "en" :=
  ⟨rfl, C4_locale_restored_after_loop envW ⟨dbW, "en"⟩ [userW] "welcome" none
    true none rfl⟩

/-- **C1**: with a consistent user table and an initially empty queue,
queueing a batch of recipients (`queue`, lines 423-438) and then draining the
queue — replaying every stored request tuple through the single-recipient
dispatch path and deleting the batch — creates the same notice records, with
the same owners in the same order and hence the same count, as dispatching
directly (`send_now`, lines 266-375) with identical arguments. -/
theorem C1_queue_drain_equiv_dispatch (env : Env) (w : World)
    (users : List UserRec) (label : String) (extra_context : Option Ctx)
    (on_site : Bool) (ctxObj : Option Entity)
    (henv : ∀ pk, (env.users pk).pk = pk)
    (hb : w.db.batches = []) :
    (drain env ⟨queue w.db users label extra_context on_site ctxObj,
        w.lang⟩).1.db.notices.map (fun n => n.user) =
      (send_now env w users label extra_context on_site
        ctxObj).db.notices.map (fun n => n.user) ∧
    (drain env ⟨queue w.db users label extra_context on_site ctxObj,
        w.lang⟩).1.db.notices.length =
      (send_now env w users label extra_context on_site
        ctxObj).db.notices.length := by
  have hq : queue w.db users label extra_context on_site ctxObj =
      { w.db with batches := [users.map (fun u =>
          { userPk := u.pk, label := label,
            extraContext := extra_context.getD [],
            on_site := on_site, context := ctxObj })] } := by
    unfold queue
    dsimp only
    rw [hb]
    rfl
  have hdrain : (drain env ⟨queue w.db users label extra_context on_site
      ctxObj, w.lang⟩).1.db.notices =
      (drain_items env (users.map (fun u =>
          { userPk := u.pk, label := label,
            extraContext := extra_context.getD [],
            on_site := on_site, context := ctxObj }))
        ⟨{ w.db with batches := [users.map (fun u =>
            { userPk := u.pk, label := label,
              extraContext := extra_context.getD [],
              on_site := on_site, context := ctxObj })] },
          w.lang⟩).1.db.notices := by
    rw [hq]
    unfold drain
    dsimp only
    exact drain_one_batch env _ _
  have hmap : (drain env ⟨queue w.db users label extra_context on_site ctxObj,
      w.lang⟩).1.db.notices.map (fun n => n.user) =
      (send_now env w users label extra_context on_site
        ctxObj).db.notices.map (fun n => n.user) := by
    cases hg : ormGet (ctxAdd w.db ctxObj).noticeTypes
        (fun t => t.label == label) with
    | found nt =>
      have hinv : (ctxAdd { w.db with batches := [users.map (fun u =>
          { userPk := u.pk, label := label,
            extraContext := extra_context.getD [],
            on_site := on_site, context := ctxObj })] } ctxObj).core =
          (ctxAdd w.db ctxObj).core := by
        unfold DB.core
        rw [ctxAdd_noticeTypes, ctxAdd_noticeTypes, ctxAdd_settings,
            ctxAdd_settings, ctxAdd_notices, ctxAdd_notices,
            ctxAdd_contexts_congr { w.db with batches := [users.map (fun u =>
              { userPk := u.pk, label := label,
                extraContext := extra_context.getD [],
                on_site := on_site, context := ctxObj })] } w.db ctxObj rfl]
      have hmain := drain_items_core env label (extra_context.getD []) on_site
        ctxObj nt henv users
        ⟨{ w.db with batches := [users.map (fun u =>
            { userPk := u.pk, label := label,
              extraContext := extra_context.getD [],
              on_site := on_site, context := ctxObj })] }, w.lang⟩
        ⟨ctxAdd w.db ctxObj, w.lang, extra_context.getD [], []⟩ hinv hg
      have howners := congrArg (fun x => x.2.2.2) hmain.1
      simp only [DB.core] at howners
      rw [ctxAdd_notices] at howners
      have hdirect : (send_now env w users label extra_context on_site
          ctxObj).db =
          (send_now_loop env label nt (snFormats env on_site) on_site ctxObj
            users ⟨ctxAdd w.db ctxObj, w.lang, extra_context.getD [],
              []⟩).1.db := by
        unfold send_now
        rw [send_now_core_db, hg]
      rw [hdrain, hdirect]
      exact howners
    | missing =>
      have hgq : ormGet (ctxAdd ({ w.db with batches := [users.map (fun u =>
          { userPk := u.pk, label := label,
            extraContext := extra_context.getD [],
            on_site := on_site, context := ctxObj })] } : DB)
          ctxObj).noticeTypes (fun t => t.label == label) = Got.missing := by
        rw [ctxAdd_noticeTypes] at hg ⊢
        exact hg
      have hdrained := drain_items_notfound env label (extra_context.getD [])
        on_site ctxObj users
        ⟨{ w.db with batches := [users.map (fun u =>
            { userPk := u.pk, label := label,
              extraContext := extra_context.getD [],
              on_site := on_site, context := ctxObj })] }, w.lang⟩
        (Or.inl hgq)
      have hdirect : (send_now env w users label extra_context on_site
          ctxObj).db.notices = w.db.notices := by
        unfold send_now
        rw [send_now_core_db, hg]
        exact ctxAdd_notices w.db ctxObj
      rw [hdrain, hdrained, hdirect]
    | multiple =>
      have hgq : ormGet (ctxAdd ({ w.db with batches := [users.map (fun u =>
          { userPk := u.pk, label := label,
            extraContext := extra_context.getD [],
            on_site := on_site, context := ctxObj })] } : DB)
          ctxObj).noticeTypes (fun t => t.label == label) = Got.multiple := by
        rw [ctxAdd_noticeTypes] at hg ⊢
        exact hg
      have hdrained := drain_items_notfound env label (extra_context.getD [])
        on_site ctxObj users
        ⟨{ w.db with batches := [users.map (fun u =>
            { userPk := u.pk, label := label,
              extraContext := extra_context.getD [],
              on_site := on_site, context := ctxObj })] }, w.lang⟩
        (Or.inr hgq)
      have hdirect : (send_now env w users label extra_context on_site
          ctxObj).db.notices = w.db.notices := by
        unfold send_now
        rw [send_now_core_db, hg]
        exact ctxAdd_notices w.db ctxObj
      rw [hdrain, hdrained, hdirect]
  refine ⟨hmap, ?_⟩
  have hlen := congrArg List.length hmap
  simpa using hlen

/-- Witness for C1: queueing `welcome` to one user over an empty queue and
draining yields the same notice owners and count as dispatching directly. -/
theorem C1_witness :
    (∀ pk : Nat, (envW.users pk).pk = pk) ∧ dbW.batches = [] ∧
    ((drain envW ⟨queue dbW [userW] "welcome" none false none,
        "en"⟩).1.db.notices.map (fun n => n.user) =
      (send_now envW ⟨dbW, "en"⟩ [userW] "welcome" none false
        none).db.notices.map (fun n => n.user) ∧
     (drain envW ⟨queue dbW [userW] "welcome" none false none,
        "en"⟩).1.db.notices.length =
      (send_now envW ⟨dbW, "en"⟩ [userW] "welcome" none false
        none).db.notices.length) :=
  ⟨fun _ => rfl, rfl,
    C1_queue_drain_equiv_dispatch envW ⟨dbW, "en"⟩ [userW] "welcome" none
      false none (fun _ => rfl) rfl⟩

end Notification
